import Mathlib

/-!
Verification development for the PulseGenerator repository: a shallow
embedding of the two core state machines, the `QMenu` hierarchical menu
navigator with its list renderer (`lib/QMenu.h`) and the `RotaryEncoder`
input decoder (`lib/RotaryEncoder.h`), together with theorems settling the
behavioural claims about them.

Modelling conventions:
- C++ pointers into the sibling/parent/child graph are represented by an
  arena of item records addressed by list index (`QMenuState`); a NULL
  pointer is `Option.none`.
- The recursive `QMenu::find` is modelled on a well-founded forest type
  (`MTree`), since the populated menus are proper trees.
- `millis()` timestamps are `Nat`; the 16-bit `word` velocity reported by
  the encoder is modelled with an explicit `% 65536`.
- Event callbacks are modelled as emitted event lists, in the exact order
  the C++ code invokes the callbacks; for the navigator we additionally
  record the primitive action sequence (state write vs. callback call) to
  reason about dispatch ordering.
-/

/-! ## Menu item tree: recursive search (`QMenu::find`) -/

/-- A menu forest node: item id, user tag (to distinguish items that share
an id), and the `menu` child link as the list of submenu siblings. -/
inductive MTree where
  | mk (id : Int) (tag : Int) (menu : List MTree)
deriving Repr

/-- Item id of a tree node (`QMenuItem::getId`). -/
def MTree.id : MTree → Int
  | .mk i _ _ => i

/-- User tag of a tree node (`QMenuItem::getTag`). -/
def MTree.tag : MTree → Int
  | .mk _ t _ => t

/-- Submenu sibling list of a tree node (`QMenuItem::getMenu`; the empty
list is the NULL child pointer). -/
def MTree.menu : MTree → List MTree
  | .mk _ _ m => m

/-- Embedding of `QMenu::find(root, id, inTree)`: walks the sibling chain
(the input list); at each item it first checks the id of the item itself, then, if
`inTree` and the item has a submenu, searches that whole submenu, and only
then moves to the next sibling. -/
def QMenu.find (target : Int) (inTree : Bool) : List MTree → Option MTree
  | [] => none
  | MTree.mk i t m :: rest =>
    if i = target then
      some (MTree.mk i t m)
    else if inTree ∧ ¬ m.isEmpty then
      match QMenu.find target inTree m with
      | some result => some result
      | none => QMenu.find target inTree rest
    else
      QMenu.find target inTree rest
termination_by l => sizeOf l
decreasing_by
  all_goals simp_arith

/-- Pre-order flattening of a forest: each node before its subtree, each
subtree before the following sibling. -/
def preorderList : List MTree → List MTree
  | [] => []
  | MTree.mk i t m :: rest => MTree.mk i t m :: (preorderList m ++ preorderList rest)
termination_by l => sizeOf l
decreasing_by
  all_goals simp_arith

/-! ## Menu navigator (`QMenu` next/prev/enter/back) over an item arena -/

/-- One `QMenuItem` record in the arena: identity, radio/checkable group
index byte, checked flag, and the four neighbour links (`_back`, `_menu`,
`_prev`, `_next`) as arena indices, `none` standing for NULL. -/
structure QMenuItemRec where
  id : Int
  groupIndex : Nat := 0
  checked : Bool := false
  back : Option Nat := none
  menu : Option Nat := none
  prev : Option Nat := none
  next : Option Nat := none
deriving DecidableEq, Repr

/-- The navigator state: the item arena and the `_active` pointer. -/
structure QMenuState where
  items : List QMenuItemRec
  active : Option Nat
deriving DecidableEq, Repr

/-- Arena lookup (pointer dereference). -/
def QMenuState.itemAt (s : QMenuState) (i : Nat) : Option QMenuItemRec :=
  s.items.get? i

/-- Primitive actions a navigator transition performs, in program order:
writing the `_active` pointer, invoking the `onActiveItemChanged` callback,
invoking the `onItemUtilized` callback. -/
inductive QMenuAct where
  | setActive (idx : Nat)
  | fireActiveItemChanged (oldItem newItem : Nat)
  | fireItemUtilized (item : Nat)
deriving DecidableEq, Repr

/-- Embedding of `QMenu::next()`: moves to the next sibling of the active item
when present, recording the state write before the callback; returns the
new item or `none` ("no transition"). An arena lookup failure (impossible
for well-formed states, where the C++ pointer is always valid) is a no-op. -/
def QMenu.next (s : QMenuState) : QMenuState × List QMenuAct × Option Nat :=
  match s.active with
  | none => (s, [], none)
  | some a =>
    match s.itemAt a with
    | none => (s, [], none)
    | some it =>
      match it.next with
      | none => (s, [], none)
      | some n =>
        ({ s with active := some n },
         [QMenuAct.setActive n, QMenuAct.fireActiveItemChanged a n], some n)

/-- Embedding of `QMenu::prev()`: symmetric to `next` via the `_prev` link. -/
def QMenu.prev (s : QMenuState) : QMenuState × List QMenuAct × Option Nat :=
  match s.active with
  | none => (s, [], none)
  | some a =>
    match s.itemAt a with
    | none => (s, [], none)
    | some it =>
      match it.prev with
      | none => (s, [], none)
      | some n =>
        ({ s with active := some n },
         [QMenuAct.setActive n, QMenuAct.fireActiveItemChanged a n], some n)

/-- Embedding of `QMenu::back()`: moves to the parent of the active item via the
`_back` link when present. -/
def QMenu.back (s : QMenuState) : QMenuState × List QMenuAct × Option Nat :=
  match s.active with
  | none => (s, [], none)
  | some a =>
    match s.itemAt a with
    | none => (s, [], none)
    | some it =>
      match it.back with
      | none => (s, [], none)
      | some n =>
        ({ s with active := some n },
         [QMenuAct.setActive n, QMenuAct.fireActiveItemChanged a n], some n)

/-- Embedding of `QMenu::enter()`: if the active item has a submenu, move to
its first child (state write, then `onActiveItemChanged`); otherwise invoke
`onItemUtilized` with the unchanged active item and return NULL. -/
def QMenu.enter (s : QMenuState) : QMenuState × List QMenuAct × Option Nat :=
  match s.active with
  | none => (s, [], none)
  | some a =>
    match s.itemAt a with
    | none => (s, [], none)
    | some it =>
      match it.menu with
      | none => (s, [QMenuAct.fireItemUtilized a], none)
      | some m =>
        ({ s with active := some m },
         [QMenuAct.setActive m, QMenuAct.fireActiveItemChanged a m], some m)

/-- Replays the state writes of an action prefix to recover the value of
the `_active` pointer at the point a callback is invoked. -/
def replayActive (a : Option Nat) : List QMenuAct → Option Nat
  | [] => a
  | QMenuAct.setActive n :: rest => replayActive (some n) rest
  | QMenuAct.fireActiveItemChanged _ _ :: rest => replayActive a rest
  | QMenuAct.fireItemUtilized _ :: rest => replayActive a rest

/-! ## Radio group switching (`QMenu::switchRadio`) over one sibling level -/

/-- The per-item data `switchRadio` reads and writes: the group index byte
and the checked flag. A level is the list of these records in sibling order
starting at `getTopItem`. -/
structure RadioItem where
  groupIndex : Nat
  checked : Bool
deriving DecidableEq, Repr

/-- Embedding of `QMenuItem::isRadio()`: group index strictly between
`QMENU_ITEM_REGULAR` (0) and `QMENU_ITEM_CHECKABLE` (255). -/
def RadioItem.isRadio (x : RadioItem) : Bool :=
  decide (0 < x.groupIndex ∧ x.groupIndex < 255)

/-- The scan loop of `QMenu::switchRadio`: walks the level from the top,
and on every radio item of the given group sets `checked` to whether the
item is the switch target (identified by its position in the level). -/
def switchScan (groupIndex target : Nat) (idx : Nat) : List RadioItem → List RadioItem
  | [] => []
  | x :: xs =>
    (if x.isRadio ∧ x.groupIndex = groupIndex then
      { x with checked := decide (idx = target) }
    else x) :: switchScan groupIndex target (idx + 1) xs

/-- Embedding of `QMenu::switchRadio(switchItem)` on one sibling level, the
target given by its position: `none` models the NULL return for a NULL or
non-radio item; an already-checked target returns with the level unchanged;
otherwise the whole level is rescanned by `switchScan`. -/
def QMenu.switchRadio (level : List RadioItem) (target : Nat) : Option (List RadioItem) :=
  match level.get? target with
  | none => none
  | some it =>
    if ¬ it.isRadio then none
    else if it.checked then some level
    else some (switchScan it.groupIndex target 0 level)

/-- Applies one `switchRadio` call as a state transition on the level (a
NULL return leaves the level unchanged, as the C++ call mutates nothing). -/
def applySwitchRadio (level : List RadioItem) (target : Nat) : List RadioItem :=
  (QMenu.switchRadio level target).getD level

/-- Number of checked radio items of group `g` in a level. -/
def checkedCount (g : Nat) : List RadioItem → Nat
  | [] => 0
  | x :: xs => (if x.isRadio ∧ x.groupIndex = g ∧ x.checked then 1 else 0) + checkedCount g xs

/-! ## Viewport scroller (`QMenuListRenderer`) -/

/-- The loop of `QMenuListRenderer::calcViewportIndex`, walking the level
with a running index; the active item is identified by its level position.
If the active item falls before the viewport the offset snaps to it; if it
falls at or beyond the far edge the offset becomes `index - size + 1`;
otherwise the walk continues (and, past the active item, changes nothing). -/
def calcViewportAux (active vpSize vpIndex : Nat) : Nat → Nat → Nat
  | _, 0 => vpIndex
  | idx, rem + 1 =>
    if idx = active then
      if idx < vpIndex then idx
      else if vpIndex + vpSize ≤ idx then idx - vpSize + 1
      else calcViewportAux active vpSize vpIndex (idx + 1) rem
    else calcViewportAux active vpSize vpIndex (idx + 1) rem

/-- Embedding of `QMenuListRenderer::calcViewportIndex` on a level of
`levelLen` items with the active item at position `active`, starting from
the persistent viewport offset `vpIndex` with `vpSize` visible rows. -/
def QMenuListRenderer.calcViewportIndex (levelLen active vpIndex vpSize : Nat) : Nat :=
  calcViewportAux active vpSize vpIndex 0 levelLen

/-- One render callback invocation of `QMenuRenderer::renderItem`: the
id of the item, whether it is active, its absolute level index (`menuIndex`) and
its row inside the viewport (`renderIndex`). -/
structure QMenuRenderItemEvent where
  itemId : Int
  isActive : Bool
  menuIndex : Nat
  renderIndex : Nat
deriving DecidableEq, Repr

/-- The loop of `QMenuListRenderer::renderItemsInViewport`: renders every
item from index `vpIndex` on, stopping after index `vpIndex + vpSize - 1`.
The level is the list of item ids in sibling order. -/
def renderItemsAux (active vpIndex vpSize : Nat) : Nat → List Int → List QMenuRenderItemEvent
  | _, [] => []
  | idx, itemId :: rest =>
    let evs := if vpIndex ≤ idx then
      [⟨itemId, decide (idx = active), idx, idx - vpIndex⟩]
    else []
    if vpIndex + vpSize - 1 ≤ idx then evs
    else evs ++ renderItemsAux active vpIndex vpSize (idx + 1) rest

/-- Embedding of `QMenuListRenderer::render` on one sibling level (given as
its list of item ids): first adjusts the persistent viewport offset, then
emits the render events; returns the new offset and the event list. -/
def QMenuListRenderer.render (level : List Int) (active vpIndex vpSize : Nat) :
    Nat × List QMenuRenderItemEvent :=
  let vp := QMenuListRenderer.calcViewportIndex level.length active vpIndex vpSize
  (vp, renderItemsAux active vp vpSize 0 level)

/-! ## Rotary encoder decoder (`RotaryEncoder`) -/

/-- Long click minimal time (`ROTARY_ENCODER_LONG_CLICK_MILLIS`). -/
def ROTARY_ENCODER_LONG_CLICK_MILLIS : Nat := 450

/-- Switch debounce window (`ROTARY_ENCODER_SWITCH_DEBOUNCE_TIME`). -/
def ROTARY_ENCODER_SWITCH_DEBOUNCE_TIME : Nat := 30

/-- Rotation direction (`RotaryEncoderDirection`). -/
inductive RotaryEncoderDirection where
  | left
  | right
deriving DecidableEq, Repr

/-- Switch action (`RotaryEncoderSwitchAction`). -/
inductive RotaryEncoderSwitchAction where
  | press
  | release
deriving DecidableEq, Repr

/-- The events delivered by the four encoder callbacks: `onChange` (with the
direction and the 16-bit velocity word), `onSwitch`, `onClick` and
`onLongClick`. -/
inductive EncEvent where
  | change (direction : RotaryEncoderDirection) (velocity : Nat)
  | switchAction (action : RotaryEncoderSwitchAction)
  | click
  | longClick
deriving DecidableEq, Repr

/-- The `RotaryEncoder` mutable state. Digital levels are `Bool` with
`true` = `HIGH`. The object has static storage in the sketches, so the
members without initializers (`_lastDebounceSwitchTime`) start zeroed. -/
structure EncoderState where
  initialized : Bool
  pinClockRetain : Bool
  pinDataRetain : Bool
  pinSwitchRetain : Bool
  velocityTime : Nat
  switchPressTime : Nat
  longClickFired : Bool
  lastDebounceSwitchTime : Nat
  lastDebounceSwitchState : Bool
deriving DecidableEq, Repr

/-- Inputs of one `update()` call: the `millis()` reading and the sampled
levels of the clock, data and switch pins. -/
structure EncInput where
  now : Nat
  clk : Bool
  dt : Bool
  sw : Bool
deriving DecidableEq, Repr

/-- Embedding of `RotaryEncoder::getDebouncedSwitchState`: on a raw level
change the debounce timestamp resets to `now`; the raw level is reported
stable only once more than the debounce window has elapsed since the last
change. Returns the new (`_lastDebounceSwitchState`, `_lastDebounceSwitchTime`)
pair and the debounced level (`none` = "not debounced yet"). -/
def RotaryEncoder.debounceStep (ldsState : Bool) (ldsTime : Nat) (now : Nat) (raw : Bool) :
    Bool × Nat × Option Bool :=
  let t := if raw ≠ ldsState then now else ldsTime
  (raw, t, if now - t > ROTARY_ENCODER_SWITCH_DEBOUNCE_TIME then some raw else none)

/-- The rotation section of `RotaryEncoder::update`: on a clock-line change
the retained level is updated; on the rising edge only, the data line picks
the direction (`right` when it equals the new high clock level) and the
velocity word is the time since the previous rotation, truncated to 16 bits. -/
def RotaryEncoder.rotationStep (s : EncoderState) (i : EncInput) : EncoderState × List EncEvent :=
  if s.pinClockRetain ≠ i.clk then
    if i.clk = true then
      ({ s with pinClockRetain := i.clk, velocityTime := i.now },
       [EncEvent.change (if i.clk = i.dt then RotaryEncoderDirection.right else RotaryEncoderDirection.left)
         ((i.now - s.velocityTime) % 65536)])
    else ({ s with pinClockRetain := i.clk }, [])
  else (s, [])

/-- The long-click section of `RotaryEncoder::update`: while a press is
open (`_switchPressTime > 0`) and no long click has fired yet, a long click
fires as soon as the press age exceeds the threshold. -/
def RotaryEncoder.longClickStep (s : EncoderState) (i : EncInput) : EncoderState × List EncEvent :=
  if s.switchPressTime > 0 ∧ s.longClickFired = false ∧
      i.now - s.switchPressTime > ROTARY_ENCODER_LONG_CLICK_MILLIS then
    ({ s with longClickFired := true }, [EncEvent.longClick])
  else (s, [])

/-- The switch section of `RotaryEncoder::update`: feeds the raw switch
level through the debouncer; on a debounced change versus the retained
stable level, a release (high, active-low switch) first fires `onClick`
unless a long click already fired, then `onSwitch(release)`, clearing the
press bookkeeping; a press (low) records the press start and fires
`onSwitch(press)`. -/
def RotaryEncoder.switchStep (s : EncoderState) (i : EncInput) : EncoderState × List EncEvent :=
  let (lds, ldt, debounced) :=
    RotaryEncoder.debounceStep s.lastDebounceSwitchState s.lastDebounceSwitchTime i.now i.sw
  let s' := { s with lastDebounceSwitchState := lds, lastDebounceSwitchTime := ldt }
  match debounced with
  | none => (s', [])
  | some pinSw =>
    if s'.pinSwitchRetain ≠ pinSw then
      if pinSw = true then
        ({ s' with pinSwitchRetain := pinSw, switchPressTime := 0, longClickFired := false },
         (if s'.longClickFired = false then [EncEvent.click] else []) ++
           [EncEvent.switchAction RotaryEncoderSwitchAction.release])
      else
        ({ s' with pinSwitchRetain := pinSw, switchPressTime := i.now, longClickFired := false },
         [EncEvent.switchAction RotaryEncoderSwitchAction.press])
    else (s', [])

/-- Embedding of `RotaryEncoder::update()`: a no-op before `begin()`, and
otherwise the rotation, long-click and switch sections run in program
order, threading the state and concatenating the emitted events. -/
def RotaryEncoder.update (s : EncoderState) (i : EncInput) : EncoderState × List EncEvent :=
  if s.initialized = false then (s, [])
  else
    let r1 := RotaryEncoder.rotationStep s i
    let r2 := RotaryEncoder.longClickStep r1.1 i
    let r3 := RotaryEncoder.switchStep r2.1 i
    (r3.1, r1.2 ++ r2.2 ++ r3.2)

/-- State after `RotaryEncoder::begin()` at time `now` with the given pin
levels: initialized, first pin reads retained, velocity clock started;
press bookkeeping at its zero-initialized defaults and the debounce state
at its member initializers (`HIGH`, zeroed timestamp). -/
def RotaryEncoder.beginState (clk dt sw : Bool) (now : Nat) : EncoderState :=
  { initialized := true
    pinClockRetain := clk
    pinDataRetain := dt
    pinSwitchRetain := sw
    velocityTime := now
    switchPressTime := 0
    longClickFired := false
    lastDebounceSwitchTime := 0
    lastDebounceSwitchState := true }

/-- Runs a sequence of `update()` calls, concatenating the emitted events. -/
def RotaryEncoder.run (s : EncoderState) : List EncInput → EncoderState × List EncEvent
  | [] => (s, [])
  | i :: rest =>
    let r := RotaryEncoder.update s i
    let r2 := RotaryEncoder.run r.1 rest
    (r2.1, r.2 ++ r2.2)

/-- Recognizes rotation events. -/
def EncEvent.isChange : EncEvent → Bool
  | .change _ _ => true
  | _ => false

/-- Recognizes click events. -/
def EncEvent.isClick : EncEvent → Bool
  | .click => true
  | _ => false

/-- Recognizes long-click events. -/
def EncEvent.isLongClick : EncEvent → Bool
  | .longClick => true
  | _ => false

/-! ## Theorems -/

/-- Auxiliary: `List.find?` distributes over append. -/
theorem find?_append_or (p : MTree → Bool) (l₁ l₂ : List MTree) :
    (l₁ ++ l₂).find? p = ((l₁.find? p).orElse fun _ => l₂.find? p) := by
  induction l₁ with
  | nil => simp [Option.orElse]
  | cons x xs ih =>
    cases hx : p x with
    | true =>
      rw [List.cons_append, List.find?_cons_of_pos _ hx, List.find?_cons_of_pos _ hx]
      rfl
    | false =>
      rw [List.cons_append, List.find?_cons_of_neg _ (by simp [hx]),
        List.find?_cons_of_neg _ (by simp [hx])]
      exact ih

/-- C1 (amended). `QMenu::find` with `inTree = true` performs a classic
pre-order search: it checks each item, then searches the entire subtree of
that item, and only then moves on to the next sibling, so the returned item
is the first match of the pre-order flattening of the forest (and NULL when
no item matches). In particular, a match deep inside the subtree of an
earlier sibling wins over a shallower match at a later sibling. -/
theorem find_eq_preorder_first (target : Int) (l : List MTree) :
    QMenu.find target true l = (preorderList l).find? (fun x => decide (x.id = target)) := by
  induction l using QMenu.find.induct target true with
  | case1 => simp [QMenu.find, preorderList]
  | case2 t m rest =>
    simp only [preorderList]
    rw [List.find?_cons_of_pos _ (by simp [MTree.id])]
    simp [QMenu.find]
  | case3 i t m rest hmiss hm result hrec ihm =>
    have h1 : QMenu.find target true (MTree.mk i t m :: rest) = some result := by
      simp [QMenu.find, hmiss, hm, hrec]
    rw [ihm] at hrec
    rw [h1]
    simp only [preorderList]
    rw [List.find?_cons_of_neg _ (by simp [MTree.id, hmiss]), find?_append_or, hrec]
    rfl
  | case4 i t m rest hmiss hm hrec ihm ihrest =>
    have h1 : QMenu.find target true (MTree.mk i t m :: rest) = QMenu.find target true rest := by
      simp [QMenu.find, hmiss, hm, hrec]
    rw [ihm] at hrec
    rw [h1, ihrest]
    simp only [preorderList]
    rw [List.find?_cons_of_neg _ (by simp [MTree.id, hmiss]), find?_append_or, hrec]
    rfl
  | case5 i t m rest hmiss hm ihrest =>
    have hm2 : m = [] := by
      rcases m with _ | _
      · rfl
      · simp at hm
    subst hm2
    have h1 : QMenu.find target true (MTree.mk i t [] :: rest) = QMenu.find target true rest := by
      simp [QMenu.find, hmiss]
    rw [h1, ihrest]
    simp only [preorderList]
    rw [List.find?_cons_of_neg _ (by simp [MTree.id, hmiss])]
    simp

/-- C1 (counterexample). In the two-sibling forest whose first sibling
(id 1) has a child with id 7 (tag 100) and whose second sibling itself has
id 7 (tag 200), `find(7, inTree = true)` returns the depth-2 child of the
first sibling, not the shallower depth-1 second sibling — refuting the
claim that siblings are walked in order before descending and that id
collisions resolve to the leftmost-shallowest match. -/
theorem find_counterexample :
    QMenu.find 7 true [MTree.mk 1 0 [MTree.mk 7 100 []], MTree.mk 7 200 []]
        = some (MTree.mk 7 100 []) ∧
    [MTree.mk 1 0 [MTree.mk 7 100 []], MTree.mk 7 200 []].get? 1
        = some (MTree.mk 7 200 []) ∧
    (MTree.mk 7 200 []).id = 7 ∧
    MTree.mk 7 100 [] ≠ MTree.mk 7 200 [] := by
  refine ⟨by simp [QMenu.find], rfl, rfl, ?_⟩
  intro h
  injection h with h1 h2 h3
  exact absurd h2 (by decide)

/-- Auxiliary: in the action trace of a committed move, the only
`fireActiveItemChanged` action sits at position 1, after the state write,
and carries the moved-from and moved-to items. -/
theorem fireChanged_in_move_acts (a n i old new : Nat)
    (h : [QMenuAct.setActive n, QMenuAct.fireActiveItemChanged a n].get? i
          = some (QMenuAct.fireActiveItemChanged old new)) :
    i = 1 ∧ old = a ∧ new = n := by
  match i with
  | 0 => simp at h
  | 1 =>
    simp at h
    exact ⟨rfl, h.1.symm, h.2.symm⟩
  | (k + 2) => simp at h

/-- C4. Navigating past a boundary is a committed no-op: with a valid
active item whose `next` link is NULL, `next()` returns NULL, performs no
action (no state write, no callback — in particular no
`ActiveItemChanged`), and leaves the state unchanged; symmetrically for
`prev()` on a first sibling and `back()` with no parent. -/
theorem nav_boundary_noop :
    (∀ (s : QMenuState) (a : Nat) (it : QMenuItemRec),
      s.active = some a → s.itemAt a = some it → it.next = none →
        QMenu.next s = (s, [], none)) ∧
    (∀ (s : QMenuState) (a : Nat) (it : QMenuItemRec),
      s.active = some a → s.itemAt a = some it → it.prev = none →
        QMenu.prev s = (s, [], none)) ∧
    (∀ (s : QMenuState) (a : Nat) (it : QMenuItemRec),
      s.active = some a → s.itemAt a = some it → it.back = none →
        QMenu.back s = (s, [], none)) := by
  refine ⟨?_, ?_, ?_⟩ <;>
    (intro s a it ha hit hl
     simp [QMenu.next, QMenu.prev, QMenu.back, ha, hit, hl])

/-- A one-item menu whose single item has no links: a boundary state for
all three directions. -/
def demoMenuSingle : QMenuState := ⟨[{ id := 1 }], some 0⟩

/-- C4 witness: the boundary no-op theorem applied to the one-item menu. -/
theorem nav_boundary_noop_witness :
    QMenu.next demoMenuSingle = (demoMenuSingle, [], none) ∧
    QMenu.prev demoMenuSingle = (demoMenuSingle, [], none) ∧
    QMenu.back demoMenuSingle = (demoMenuSingle, [], none) :=
  ⟨nav_boundary_noop.1 demoMenuSingle 0 { id := 1 } rfl rfl rfl,
   nav_boundary_noop.2.1 demoMenuSingle 0 { id := 1 } rfl rfl rfl,
   nav_boundary_noop.2.2 demoMenuSingle 0 { id := 1 } rfl rfl rfl⟩

/-- C5. `enter()` with a valid active item: when the item has a first
child, the active pointer moves to that child and `ActiveItemChanged(old,
child)` fires (after the write); when the item has no child, the state is
unchanged, `ItemUtilized(active)` fires instead, no `ActiveItemChanged`
fires, and the returned value is NULL. -/
theorem enter_child_or_utilize :
    (∀ (s : QMenuState) (a m : Nat) (it : QMenuItemRec),
      s.active = some a → s.itemAt a = some it → it.menu = some m →
        QMenu.enter s = ({ s with active := some m },
          [QMenuAct.setActive m, QMenuAct.fireActiveItemChanged a m], some m)) ∧
    (∀ (s : QMenuState) (a : Nat) (it : QMenuItemRec),
      s.active = some a → s.itemAt a = some it → it.menu = none →
        QMenu.enter s = (s, [QMenuAct.fireItemUtilized a], none)) := by
  refine ⟨?_, ?_⟩ <;>
    (intro s a
     intro rest
     intros
     simp_all [QMenu.enter])

/-- A two-item menu: item 0 has item 1 as its submenu child; item 1 is a
leaf pointing back to item 0. -/
def demoMenuParentChild : QMenuState :=
  ⟨[{ id := 1, menu := some 1 }, { id := 2, back := some 0 }], some 0⟩

/-- The same two-item menu with the leaf child active. -/
def demoMenuChildActive : QMenuState :=
  ⟨[{ id := 1, menu := some 1 }, { id := 2, back := some 0 }], some 1⟩

/-- C5 witness: entering the parent moves to the child and fires
`ActiveItemChanged(0, 1)`; entering the leaf child utilizes it. -/
theorem enter_child_or_utilize_witness :
    QMenu.enter demoMenuParentChild = (demoMenuChildActive,
      [QMenuAct.setActive 1, QMenuAct.fireActiveItemChanged 0 1], some 1) ∧
    QMenu.enter demoMenuChildActive
      = (demoMenuChildActive, [QMenuAct.fireItemUtilized 1], none) :=
  ⟨enter_child_or_utilize.1 demoMenuParentChild 0 1 { id := 1, menu := some 1 } rfl rfl rfl,
   enter_child_or_utilize.2 demoMenuChildActive 1 { id := 2, back := some 0 } rfl rfl rfl⟩

/-- C9. Whenever `next`, `prev`, `enter` or `back` fires
`ActiveItemChanged`, the `_active` write precedes the callback in the
action trace: replaying the trace up to the callback yields an active
pointer already equal to the newActiveItem of the event, which is also the
final active pointer of the transition. -/
theorem activeItemChanged_sees_post_state :
    (∀ (s : QMenuState) (i old new : Nat),
      (QMenu.next s).2.1.get? i = some (QMenuAct.fireActiveItemChanged old new) →
        replayActive s.active ((QMenu.next s).2.1.take i) = some new ∧
        (QMenu.next s).1.active = some new) ∧
    (∀ (s : QMenuState) (i old new : Nat),
      (QMenu.prev s).2.1.get? i = some (QMenuAct.fireActiveItemChanged old new) →
        replayActive s.active ((QMenu.prev s).2.1.take i) = some new ∧
        (QMenu.prev s).1.active = some new) ∧
    (∀ (s : QMenuState) (i old new : Nat),
      (QMenu.enter s).2.1.get? i = some (QMenuAct.fireActiveItemChanged old new) →
        replayActive s.active ((QMenu.enter s).2.1.take i) = some new ∧
        (QMenu.enter s).1.active = some new) ∧
    (∀ (s : QMenuState) (i old new : Nat),
      (QMenu.back s).2.1.get? i = some (QMenuAct.fireActiveItemChanged old new) →
        replayActive s.active ((QMenu.back s).2.1.take i) = some new ∧
        (QMenu.back s).1.active = some new) := by
  refine ⟨?_, ?_, ?_, ?_⟩
  case _ =>
    intro s i old new h
    rcases hs : s.active with _ | a
    · simp [QMenu.next, hs] at h
    · rcases hit : s.itemAt a with _ | it
      · simp [QMenu.next, hs, hit] at h
      · rcases hn : it.next with _ | n
        · simp [QMenu.next, hs, hit, hn] at h
        · have hacts : (QMenu.next s).2.1
              = [QMenuAct.setActive n, QMenuAct.fireActiveItemChanged a n] := by
            simp [QMenu.next, hs, hit, hn]
          rw [hacts] at h
          obtain ⟨hi, _, hnew⟩ := fireChanged_in_move_acts a n i old new h
          subst hi
          subst hnew
          refine ⟨by rw [hacts]; simp [replayActive], ?_⟩
          simp [QMenu.next, hs, hit, hn]
  case _ =>
    intro s i old new h
    rcases hs : s.active with _ | a
    · simp [QMenu.prev, hs] at h
    · rcases hit : s.itemAt a with _ | it
      · simp [QMenu.prev, hs, hit] at h
      · rcases hn : it.prev with _ | n
        · simp [QMenu.prev, hs, hit, hn] at h
        · have hacts : (QMenu.prev s).2.1
              = [QMenuAct.setActive n, QMenuAct.fireActiveItemChanged a n] := by
            simp [QMenu.prev, hs, hit, hn]
          rw [hacts] at h
          obtain ⟨hi, _, hnew⟩ := fireChanged_in_move_acts a n i old new h
          subst hi
          subst hnew
          refine ⟨by rw [hacts]; simp [replayActive], ?_⟩
          simp [QMenu.prev, hs, hit, hn]
  case _ =>
    intro s i old new h
    rcases hs : s.active with _ | a
    · simp [QMenu.enter, hs] at h
    · rcases hit : s.itemAt a with _ | it
      · simp [QMenu.enter, hs, hit] at h
      · rcases hn : it.menu with _ | n
        · simp [QMenu.enter, hs, hit, hn] at h
          rcases i with _ | k <;> simp at h
        · have hacts : (QMenu.enter s).2.1
              = [QMenuAct.setActive n, QMenuAct.fireActiveItemChanged a n] := by
            simp [QMenu.enter, hs, hit, hn]
          rw [hacts] at h
          obtain ⟨hi, _, hnew⟩ := fireChanged_in_move_acts a n i old new h
          subst hi
          subst hnew
          refine ⟨by rw [hacts]; simp [replayActive], ?_⟩
          simp [QMenu.enter, hs, hit, hn]
  case _ =>
    intro s i old new h
    rcases hs : s.active with _ | a
    · simp [QMenu.back, hs] at h
    · rcases hit : s.itemAt a with _ | it
      · simp [QMenu.back, hs, hit] at h
      · rcases hn : it.back with _ | n
        · simp [QMenu.back, hs, hit, hn] at h
        · have hacts : (QMenu.back s).2.1
              = [QMenuAct.setActive n, QMenuAct.fireActiveItemChanged a n] := by
            simp [QMenu.back, hs, hit, hn]
          rw [hacts] at h
          obtain ⟨hi, _, hnew⟩ := fireChanged_in_move_acts a n i old new h
          subst hi
          subst hnew
          refine ⟨by rw [hacts]; simp [replayActive], ?_⟩
          simp [QMenu.back, hs, hit, hn]

/-- C9 witness: for `enter` on the parent/child demo menu, the callback at
trace position 1 sees the already-updated active pointer, item 1. -/
theorem activeItemChanged_sees_post_state_witness :
    replayActive demoMenuParentChild.active ((QMenu.enter demoMenuParentChild).2.1.take 1)
      = some 1 ∧
    (QMenu.enter demoMenuParentChild).1.active = some 1 :=
  activeItemChanged_sees_post_state.2.2.1 demoMenuParentChild 1 0 1 rfl

/-- C10 (implicit claim). The return value of `enter()` on a childless
active item is NULL — the very same indicator returned when there is no
active item and by boundary `next`/`prev`/`back` — so the return value
alone cannot distinguish a utilized leaf from a failed transition; only the
`ItemUtilized` callback signals utilization. -/
theorem enter_return_indistinguishable :
    (∀ (s : QMenuState) (a : Nat) (it : QMenuItemRec),
      s.active = some a → s.itemAt a = some it → it.menu = none →
        (QMenu.enter s).2.2 = none ∧
        (QMenu.enter s).2.1 = [QMenuAct.fireItemUtilized a] ∧
        (QMenu.enter s).1 = s) ∧
    (∀ s : QMenuState, s.active = none → QMenu.enter s = (s, [], none)) ∧
    (∀ (s : QMenuState) (a : Nat) (it : QMenuItemRec),
      s.active = some a → s.itemAt a = some it → it.next = none →
        (QMenu.next s).2.2 = none) ∧
    (∀ (s : QMenuState) (a : Nat) (it : QMenuItemRec),
      s.active = some a → s.itemAt a = some it → it.prev = none →
        (QMenu.prev s).2.2 = none) ∧
    (∀ (s : QMenuState) (a : Nat) (it : QMenuItemRec),
      s.active = some a → s.itemAt a = some it → it.back = none →
        (QMenu.back s).2.2 = none) := by
  refine ⟨?_, ?_, ?_, ?_, ?_⟩
  case _ =>
    intro s a it ha hit hm
    simp [QMenu.enter, ha, hit, hm]
  case _ =>
    intro s hs
    simp [QMenu.enter, hs]
  case _ =>
    intro s a it ha hit hl
    simp [QMenu.next, ha, hit, hl]
  case _ =>
    intro s a it ha hit hl
    simp [QMenu.prev, ha, hit, hl]
  case _ =>
    intro s a it ha hit hl
    simp [QMenu.back, ha, hit, hl]

/-- C10 witness: on the demo menu, entering the leaf child returns NULL
while firing `ItemUtilized`, exactly like the boundary transitions. -/
theorem enter_return_indistinguishable_witness :
    (QMenu.enter demoMenuChildActive).2.2 = none ∧
    (QMenu.enter demoMenuChildActive).2.1 = [QMenuAct.fireItemUtilized 1] ∧
    (QMenu.enter demoMenuChildActive).1 = demoMenuChildActive :=
  enter_return_indistinguishable.1 demoMenuChildActive 1 { id := 2, back := some 0 } rfl rfl rfl


/-- Auxiliary counting function: the number of positions in a tail of the
level (whose first element has running index `i`) that hold a radio item of
group `g` and sit exactly at the target position `t`. -/
def hitCount (g t : Nat) : List RadioItem → Nat → Nat
  | [], _ => 0
  | x :: xs, i =>
    (if x.isRadio ∧ x.groupIndex = g ∧ i = t then 1 else 0) + hitCount g t xs (i + 1)

/-- Auxiliary: pointwise description of the scan — the item at position `j`
is rewritten exactly when it is a radio item of the scanned group, its new
checked flag recording whether it is the target. -/
theorem switchScan_get? (g t : Nat) :
    ∀ (l : List RadioItem) (i j : Nat),
      (switchScan g t i l).get? j = (l.get? j).map (fun x =>
        if x.isRadio ∧ x.groupIndex = g then { x with checked := decide ((i + j) = t) }
        else x) := by
  intro l
  induction l with
  | nil => intro i j; simp [switchScan]
  | cons x xs ih =>
    intro i j
    match j with
    | 0 => simp [switchScan]
    | j + 1 =>
      simp only [switchScan, List.get?_cons_succ, ih (i + 1) j]
      have h2 : i + 1 + j = i + (j + 1) := by omega
      rw [h2]

/-- Auxiliary: the checked count of group `g` after a scan targeting
position `t` equals the number of group-`g` radio hits at `t`. -/
theorem checkedCount_switchScan (g t : Nat) :
    ∀ (l : List RadioItem) (i : Nat),
      checkedCount g (switchScan g t i l) = hitCount g t l i := by
  intro l
  induction l with
  | nil => intro i; rfl
  | cons x xs ih =>
    intro i
    obtain ⟨xg, xc⟩ := x
    rw [switchScan, checkedCount, hitCount, ih (i + 1)]
    congr 1
    by_cases hx : RadioItem.isRadio ⟨xg, xc⟩ = true ∧ xg = g
    · rw [if_pos hx]
      apply if_congr _ rfl rfl
      constructor
      · rintro ⟨h1, h2, h3⟩
        exact ⟨h1, h2, by simpa using h3⟩
      · rintro ⟨h1, h2, h3⟩
        exact ⟨h1, h2, by simpa using h3⟩
    · rw [if_neg hx]
      apply if_congr _ rfl rfl
      constructor
      · rintro ⟨h1, h2, _⟩
        exact ((hx ⟨h1, h2⟩).elim)
      · rintro ⟨h1, h2, _⟩
        exact ((hx ⟨h1, h2⟩).elim)

/-- Auxiliary: no hit exists once the running index has passed the target. -/
theorem hitCount_eq_zero (g t : Nat) :
    ∀ (l : List RadioItem) (i : Nat), t < i → hitCount g t l i = 0 := by
  intro l
  induction l with
  | nil => intro i _; rfl
  | cons x xs ih =>
    intro i hi
    rw [hitCount, ih (i + 1) (by omega),
      if_neg (by rintro ⟨_, _, rfl⟩; omega)]

/-- Auxiliary: exactly one hit exists when the target position holds a
radio item of the scanned group. -/
theorem hitCount_eq_one (g t : Nat) :
    ∀ (l : List RadioItem) (i : Nat) (x : RadioItem), i ≤ t →
      l.get? (t - i) = some x → x.isRadio = true → x.groupIndex = g →
      hitCount g t l i = 1 := by
  intro l
  induction l with
  | nil => intro i x _ hget; simp at hget
  | cons y ys ih =>
    intro i x hi hget hr hg
    by_cases hit : i = t
    · subst hit
      simp only [Nat.sub_self, List.get?_cons_zero, Option.some_inj] at hget
      subst hget
      rw [hitCount, if_pos ⟨hr, hg, rfl⟩, hitCount_eq_zero g i ys (i + 1) (by omega)]
    · have h1 : t - i = (t - (i + 1)) + 1 := by omega
      rw [h1, List.get?_cons_succ] at hget
      rw [hitCount, if_neg (by rintro ⟨_, _, rfl⟩; exact hit rfl),
        ih (i + 1) x (by omega) hget hr hg]

/-- Auxiliary: a `switchRadio` call either reports "not applicable", or is
the idempotent no-op on an already-checked radio item, or rescans the level
for the (unchecked radio) target. -/
theorem switchRadio_cases (level : List RadioItem) (c : Nat) :
    QMenu.switchRadio level c = none ∨ QMenu.switchRadio level c = some level ∨
    ∃ x, level.get? c = some x ∧ x.isRadio = true ∧ x.checked = false ∧
      QMenu.switchRadio level c = some (switchScan x.groupIndex c 0 level) := by
  unfold QMenu.switchRadio
  rcases hget : level.get? c with _ | it
  · simp [hget]
  · simp only [hget]
    by_cases hr : it.isRadio = true
    · by_cases hc : it.checked = true
      · right
        left
        simp [hr, hc]
      · right
        right
        exact ⟨it, rfl, hr, by simpa using hc, by simp [hr, hc]⟩
    · left
      simp [hr]

/-- Auxiliary: rewriting only the checked flag never changes a group index. -/
theorem ite_setChecked_groupIndex (P : Prop) [Decidable P] (y : RadioItem) (b : Bool) :
    (if P then { y with checked := b } else y).groupIndex = y.groupIndex := by
  by_cases h : P
  · rw [if_pos h]
  · rw [if_neg h]

/-- Auxiliary: one `switchRadio` call never changes the group index (hence
never the radio-ness) of any item in the level. -/
theorem applySwitchRadio_groupIndex (level : List RadioItem) (c j : Nat) :
    ((applySwitchRadio level c).get? j).map (fun x => x.groupIndex)
      = (level.get? j).map (fun x => x.groupIndex) := by
  rcases switchRadio_cases level c with h | h | ⟨x, _, _, _, h⟩
  · rw [applySwitchRadio, h]
    rfl
  · rw [applySwitchRadio, h]
    rfl
  · rw [applySwitchRadio, h]
    show ((switchScan x.groupIndex c 0 level).get? j).map (fun x => x.groupIndex) = _
    rw [switchScan_get?]
    rcases level.get? j with _ | y
    · rfl
    · show some (if y.isRadio = true ∧ y.groupIndex = x.groupIndex then
          ({ y with checked := decide ((0 + j) = c) } : RadioItem) else y).groupIndex
        = some y.groupIndex
      rw [ite_setChecked_groupIndex]

/-- Auxiliary: one valid `switchRadio` call on a group-`g` radio item
leaves exactly one group-`g` item checked. -/
theorem checkedCount_applySwitchRadio (g : Nat) (level : List RadioItem) (c : Nat)
    (x : RadioItem) (hget : level.get? c = some x) (hr : x.isRadio = true)
    (hg : x.groupIndex = g) (hcount : checkedCount g level = 1) :
    checkedCount g (applySwitchRadio level c) = 1 := by
  have hsw : QMenu.switchRadio level c
      = if x.checked then some level else some (switchScan x.groupIndex c 0 level) := by
    unfold QMenu.switchRadio
    simp only [hget]
    simp [hr]
  by_cases hc : x.checked = true
  · rw [applySwitchRadio, hsw, if_pos hc]
    exact hcount
  · rw [applySwitchRadio, hsw, if_neg (by simpa using hc)]
    show checkedCount g (switchScan x.groupIndex c 0 level) = 1
    rw [hg, checkedCount_switchScan g c level 0]
    exact hitCount_eq_one g c level 0 x (Nat.zero_le c) (by simpa using hget) hr hg

/-- C3. Radio exclusivity: starting from a level with exactly one checked
item in group `n`, any sequence of `switchRadio` calls targeting radio
items of group `n` in that level leaves exactly one group-`n` item checked;
a call on an already-checked radio item changes no flag (idempotence); and
a successful call checks the target while unchecking every other same-group
sibling, touching nothing else. -/
theorem switchRadio_radio_exclusivity :
    (∀ (g : Nat) (level : List RadioItem) (calls : List Nat),
      checkedCount g level = 1 →
      (∀ t ∈ calls, ∃ x, level.get? t = some x ∧ x.isRadio = true ∧ x.groupIndex = g) →
      checkedCount g (calls.foldl applySwitchRadio level) = 1) ∧
    (∀ (level : List RadioItem) (t : Nat) (x : RadioItem),
      level.get? t = some x → x.isRadio = true → x.checked = true →
      QMenu.switchRadio level t = some level) ∧
    (∀ (level : List RadioItem) (t : Nat) (x : RadioItem),
      level.get? t = some x → x.isRadio = true → x.checked = false →
      QMenu.switchRadio level t = some (switchScan x.groupIndex t 0 level) ∧
      ∀ (j : Nat) (y : RadioItem), level.get? j = some y →
        (switchScan x.groupIndex t 0 level).get? j = some
          (if y.isRadio = true ∧ y.groupIndex = x.groupIndex then
            { y with checked := decide (j = t) } else y)) := by
  refine ⟨?_, ?_, ?_⟩
  · intro g level calls
    induction calls generalizing level with
    | nil =>
      intro h1 _
      simpa using h1
    | cons c cs ih =>
      intro h1 hvalid
      obtain ⟨x, hget, hr, hg⟩ := hvalid c (by simp)
      rw [List.foldl_cons]
      apply ih _ (checkedCount_applySwitchRadio g level c x hget hr hg h1)
      intro t ht
      obtain ⟨y, hy, hyr, hyg⟩ := hvalid t (by simp [ht])
      have hpres := applySwitchRadio_groupIndex level c t
      rw [hy] at hpres
      rcases hnew : (applySwitchRadio level c).get? t with _ | y'
      · rw [hnew] at hpres
        exact Option.noConfusion hpres
      · rw [hnew] at hpres
        have hgi : y'.groupIndex = y.groupIndex := Option.some_inj.mp hpres
        refine ⟨y', rfl, ?_, by rw [hgi]; exact hyg⟩
        rw [RadioItem.isRadio, hgi]
        rw [RadioItem.isRadio] at hyr
        exact hyr
  · intro level t x hget hr hc
    unfold QMenu.switchRadio
    simp only [hget]
    simp [hr, hc]
  · intro level t x hget hr hc
    constructor
    · unfold QMenu.switchRadio
      simp only [hget]
      simp [hr, hc]
    · intro j y hj
      rw [switchScan_get? x.groupIndex t level 0 j, hj]
      simp only [Nat.zero_add]
      rfl

/-- A three-item level: two radio items of group 1 (the first checked) and
one regular item. -/
def demoRadioLevel : List RadioItem := [⟨1, true⟩, ⟨1, false⟩, ⟨0, false⟩]

/-- C3 witness: the exclusivity theorem applied to the three-item demo
level under the call sequence [1, 0, 1], plus the idempotent no-op on the
already-checked item 0. -/
theorem switchRadio_radio_exclusivity_witness :
    checkedCount 1 ([1, 0, 1].foldl applySwitchRadio demoRadioLevel) = 1 ∧
    QMenu.switchRadio demoRadioLevel 0 = some demoRadioLevel :=
  ⟨switchRadio_radio_exclusivity.1 1 demoRadioLevel [1, 0, 1] rfl
    (by
      intro t ht
      simp only [List.mem_cons, List.not_mem_nil, or_false] at ht
      rcases ht with rfl | rfl | rfl
      · exact ⟨⟨1, false⟩, rfl, rfl, rfl⟩
      · exact ⟨⟨1, true⟩, rfl, rfl, rfl⟩
      · exact ⟨⟨1, false⟩, rfl, rfl, rfl⟩),
   switchRadio_radio_exclusivity.2.1 demoRadioLevel 0 ⟨1, true⟩ rfl rfl rfl⟩

/-- Auxiliary: once the walk has passed the active position, the loop of
`calcViewportIndex` changes nothing. -/
theorem calcViewportAux_of_lt (active vpSize vpIndex : Nat) :
    ∀ (rem idx : Nat), active < idx →
      calcViewportAux active vpSize vpIndex idx rem = vpIndex := by
  intro rem
  induction rem with
  | zero => intro idx _; rfl
  | succ rem ih =>
    intro idx hidx
    rw [calcViewportAux, if_neg (by omega)]
    exact ih (idx + 1) (by omega)

/-- Auxiliary: whenever the walk still has the active position ahead of it,
the adjusted viewport offset brackets the active position. -/
theorem calcViewportAux_containment (active vpSize vpIndex : Nat) (hsize : 1 ≤ vpSize) :
    ∀ (rem idx : Nat), idx ≤ active → active < idx + rem →
      calcViewportAux active vpSize vpIndex idx rem ≤ active ∧
      active < calcViewportAux active vpSize vpIndex idx rem + vpSize := by
  intro rem
  induction rem generalizing vpIndex with
  | zero => intro idx h1 h2; omega
  | succ rem ih =>
    intro idx h1 h2
    by_cases hidx : idx = active
    · subst hidx
      rw [calcViewportAux, if_pos rfl]
      by_cases hlow : idx < vpIndex
      · rw [if_pos hlow]
        omega
      · rw [if_neg hlow]
        by_cases hhigh : vpIndex + vpSize ≤ idx
        · rw [if_pos hhigh]
          omega
        · rw [if_neg hhigh]
          rw [calcViewportAux_of_lt idx vpSize vpIndex rem (idx + 1) (by omega)]
          omega
    · rw [calcViewportAux, if_neg hidx]
      exact ih vpIndex (idx + 1) (by omega) (by omega)

/-- The five-sibling level of Scenario A, ids 11–15, as a navigator arena
with item 11 active. -/
def demoLevelMenu : QMenuState := ⟨[
  { id := 11, next := some 1 },
  { id := 12, prev := some 0, next := some 2 },
  { id := 13, prev := some 1, next := some 3 },
  { id := 14, prev := some 2, next := some 4 },
  { id := 15, prev := some 3 }], some 0⟩

/-- Iterates `next()`, keeping the navigator state. -/
def nextIter (s : QMenuState) : Nat → QMenuState
  | 0 => s
  | k + 1 => (QMenu.next (nextIter s k)).1

/-- C6. Viewport containment and Scenario A: after `calcViewportIndex`, the
absolute index of the active item always lies inside
`[viewportOffset, viewportOffset + viewportSize)`; and on the concrete
five-sibling level with ids 11–15 and viewport size 3, four `next()` calls
with a render after each produce active indices 1–4, the sticky offsets
0, 0, 1, 2, and a final rendered window of indices 2–4 (ids 13, 14, 15)
with the active item at row offset 2. -/
theorem viewport_containment_scenario :
    (∀ (levelLen active vpIndex vpSize : Nat), 1 ≤ vpSize → active < levelLen →
      QMenuListRenderer.calcViewportIndex levelLen active vpIndex vpSize ≤ active ∧
      active < QMenuListRenderer.calcViewportIndex levelLen active vpIndex vpSize + vpSize) ∧
    ((nextIter demoLevelMenu 1).active = some 1 ∧
     (nextIter demoLevelMenu 2).active = some 2 ∧
     (nextIter demoLevelMenu 3).active = some 3 ∧
     (nextIter demoLevelMenu 4).active = some 4) ∧
    (QMenuListRenderer.calcViewportIndex 5 1 0 3 = 0 ∧
     QMenuListRenderer.calcViewportIndex 5 2 0 3 = 0 ∧
     QMenuListRenderer.calcViewportIndex 5 3 0 3 = 1 ∧
     QMenuListRenderer.calcViewportIndex 5 4 1 3 = 2) ∧
    QMenuListRenderer.render [11, 12, 13, 14, 15] 4 1 3 = (2,
      [⟨13, false, 2, 0⟩, ⟨14, false, 3, 1⟩, ⟨15, true, 4, 2⟩]) := by
  refine ⟨?_, by decide, by decide, by decide⟩
  intro levelLen active vpIndex vpSize hsize hactive
  exact calcViewportAux_containment active vpSize vpIndex hsize levelLen 0 (by omega)
    (by omega)

/-- C6 witness: the containment part applied to the final Scenario A render
pass (level length 5, active index 4, sticky offset 1, viewport size 3). -/
theorem viewport_containment_scenario_witness :
    QMenuListRenderer.calcViewportIndex 5 4 1 3 ≤ 4 ∧
    4 < QMenuListRenderer.calcViewportIndex 5 4 1 3 + 3 :=
  viewport_containment_scenario.1 5 4 1 3 (by decide) (by decide)

/-- Runs `getDebouncedSwitchState` over a trace of `(millis, raw level)`
samples, collecting the per-call debounced outputs. -/
def debounceRun (st : Bool × Nat) : List (Nat × Bool) → (Bool × Nat) × List (Option Bool)
  | [] => (st, [])
  | (now, raw) :: rest =>
    let r := RotaryEncoder.debounceStep st.1 st.2 now raw
    let r2 := debounceRun (r.1, r.2.1) rest
    (r2.1, r.2.2 :: r2.2)

/-- The time of the last raw-level change in a trace (a change is a sample
whose level differs from the previous sample, the level before the trace
being `prev`), defaulting to `d` when the trace contains no change. -/
def lastRawChangeTime (d : Nat) (prev : Bool) : List (Nat × Bool) → Nat
  | [] => d
  | (now, raw) :: rest => lastRawChangeTime (if raw ≠ prev then now else d) raw rest

/-- C8. Debounce rolling window: after any sample trace the debounce
timestamp equals the time of the last raw-level change (every change resets
it to `now`), and each call reports a stable level exactly when the elapsed
time since the last raw change up to that call exceeds the 30 ms threshold
— in particular, no stable level is ever reported earlier. -/
theorem debounce_rolling_window :
    (∀ (trace : List (Nat × Bool)) (lds : Bool) (ldt : Nat),
      (debounceRun (lds, ldt) trace).1.2 = lastRawChangeTime ldt lds trace) ∧
    (∀ (trace : List (Nat × Bool)) (lds : Bool) (ldt : Nat) (k now : Nat) (raw : Bool),
      trace.get? k = some (now, raw) →
      (debounceRun (lds, ldt) trace).2.get? k
        = some (if now - lastRawChangeTime ldt lds (trace.take (k + 1))
              > ROTARY_ENCODER_SWITCH_DEBOUNCE_TIME then some raw else none)) := by
  constructor
  · intro trace
    induction trace with
    | nil => intro lds ldt; rfl
    | cons p rest ih =>
      intro lds ldt
      obtain ⟨now, raw⟩ := p
      rw [debounceRun, lastRawChangeTime]
      exact ih raw (if raw ≠ lds then now else ldt)
  · intro trace
    induction trace with
    | nil =>
      intro lds ldt k now raw hk
      simp at hk
    | cons p rest ih =>
      intro lds ldt k now raw hk
      obtain ⟨n0, r0⟩ := p
      match k with
      | 0 =>
        simp only [List.get?_cons_zero, Option.some_inj, Prod.mk.injEq] at hk
        obtain ⟨rfl, rfl⟩ := hk
        rfl
      | k + 1 =>
        rw [debounceRun]
        show (debounceRun (r0, if r0 ≠ lds then n0 else ldt) rest).2.get? k = _
        rw [List.get?_cons_succ] at hk
        rw [ih r0 (if r0 ≠ lds then n0 else ldt) k now raw hk]
        rfl

/-- C8 witness: a glitchy trace with changes at 10, 25 and 40 ms; at the
call at 75 ms the elapsed time since the last change is 35 ms and the level
is reported stable. -/
theorem debounce_rolling_window_witness :
    (debounceRun (true, 0) [(10, false), (25, true), (40, false), (75, false)]).1.2
      = lastRawChangeTime 0 true [(10, false), (25, true), (40, false), (75, false)] ∧
    (debounceRun (true, 0) [(10, false), (25, true), (40, false), (75, false)]).2.get? 3
      = some (if 75 - lastRawChangeTime 0 true
              ([(10, false), (25, true), (40, false), (75, false)].take 4)
            > ROTARY_ENCODER_SWITCH_DEBOUNCE_TIME then some false else none) :=
  ⟨debounce_rolling_window.1 _ true 0,
   debounce_rolling_window.2 _ true 0 3 75 false rfl⟩

/-- Auxiliary: closed form of the rotation section — the clock retain
always tracks the sample, and exactly on a rising edge (retained low, new
high) one change event fires and the velocity clock restarts. -/
theorem rotationStep_spec (s : EncoderState) (i : EncInput) :
    RotaryEncoder.rotationStep s i
      = ({ s with
            pinClockRetain := i.clk
            velocityTime :=
              if s.pinClockRetain = false ∧ i.clk = true then i.now else s.velocityTime },
         if s.pinClockRetain = false ∧ i.clk = true then
           [EncEvent.change
             (if i.clk = i.dt then RotaryEncoderDirection.right else RotaryEncoderDirection.left)
             ((i.now - s.velocityTime) % 65536)]
         else []) := by
  obtain ⟨ini, pcr, pdr, psr, vt, spt, lcf, ldt, lds⟩ := s
  obtain ⟨now, clk, dt, sw⟩ := i
  cases pcr <;> cases clk <;> rfl

/-- Auxiliary: the long-click section never touches the clock retain. -/
theorem longClickStep_pinClockRetain (s : EncoderState) (i : EncInput) :
    (RotaryEncoder.longClickStep s i).1.pinClockRetain = s.pinClockRetain := by
  unfold RotaryEncoder.longClickStep
  split <;> rfl

/-- Auxiliary: the long-click section never touches the velocity clock. -/
theorem longClickStep_velocityTime (s : EncoderState) (i : EncInput) :
    (RotaryEncoder.longClickStep s i).1.velocityTime = s.velocityTime := by
  unfold RotaryEncoder.longClickStep
  split <;> rfl

/-- Auxiliary: the long-click section never touches the init flag. -/
theorem longClickStep_initialized (s : EncoderState) (i : EncInput) :
    (RotaryEncoder.longClickStep s i).1.initialized = s.initialized := by
  unfold RotaryEncoder.longClickStep
  split <;> rfl

/-- Auxiliary: the long-click section emits no rotation events. -/
theorem longClickStep_filter_change (s : EncoderState) (i : EncInput) :
    (RotaryEncoder.longClickStep s i).2.filter EncEvent.isChange = [] := by
  unfold RotaryEncoder.longClickStep
  split <;> rfl

/-- Auxiliary: the switch section never touches the clock retain. -/
theorem switchStep_pinClockRetain (s : EncoderState) (i : EncInput) :
    (RotaryEncoder.switchStep s i).1.pinClockRetain = s.pinClockRetain := by
  unfold RotaryEncoder.switchStep RotaryEncoder.debounceStep
  dsimp only
  repeat' split
  all_goals rfl

/-- Auxiliary: the switch section never touches the velocity clock. -/
theorem switchStep_velocityTime (s : EncoderState) (i : EncInput) :
    (RotaryEncoder.switchStep s i).1.velocityTime = s.velocityTime := by
  unfold RotaryEncoder.switchStep RotaryEncoder.debounceStep
  dsimp only
  repeat' split
  all_goals rfl

/-- Auxiliary: the switch section never touches the init flag. -/
theorem switchStep_initialized (s : EncoderState) (i : EncInput) :
    (RotaryEncoder.switchStep s i).1.initialized = s.initialized := by
  unfold RotaryEncoder.switchStep RotaryEncoder.debounceStep
  dsimp only
  repeat' split
  all_goals rfl

/-- Auxiliary: the switch section emits no rotation events. -/
theorem switchStep_filter_change (s : EncoderState) (i : EncInput) :
    (RotaryEncoder.switchStep s i).2.filter EncEvent.isChange = [] := by
  unfold RotaryEncoder.switchStep RotaryEncoder.debounceStep
  dsimp only
  repeat' split
  all_goals rfl

/-- Auxiliary: rotation behaviour of one whole `update()` call on an
initialized state. -/
theorem update_change_spec (s : EncoderState) (i : EncInput) (hinit : s.initialized = true) :
    (RotaryEncoder.update s i).2.filter EncEvent.isChange
        = (if s.pinClockRetain = false ∧ i.clk = true then
            [EncEvent.change
              (if i.clk = i.dt then RotaryEncoderDirection.right else RotaryEncoderDirection.left)
              ((i.now - s.velocityTime) % 65536)]
           else []) ∧
    (RotaryEncoder.update s i).1.pinClockRetain = i.clk ∧
    (RotaryEncoder.update s i).1.velocityTime
        = (if s.pinClockRetain = false ∧ i.clk = true then i.now else s.velocityTime) ∧
    (RotaryEncoder.update s i).1.initialized = true := by
  unfold RotaryEncoder.update
  rw [hinit]
  simp only [Bool.true_eq_false, if_false]
  rw [rotationStep_spec]
  dsimp only
  refine ⟨?_, ?_, ?_, ?_⟩
  · rw [List.filter_append, List.filter_append, longClickStep_filter_change,
      switchStep_filter_change, List.append_nil, List.append_nil]
    split <;> rfl
  · rw [switchStep_pinClockRetain, longClickStep_pinClockRetain]
  · rw [switchStep_velocityTime, longClickStep_velocityTime]
  · rw [switchStep_initialized, longClickStep_initialized]
    exact hinit

/-- The rotation event stream the spec describes, rebuilt from the claim:
one event per clock rising edge of the sample trace (never on falling or
data-only changes), direction `right` exactly when the data line equals the
new high clock level, and velocity the time since the previous rotation
event (since `begin()` for the first), truncated to the 16-bit `word`. -/
def specRotationEvents (retain : Bool) (vt : Nat) : List EncInput → List EncEvent
  | [] => []
  | i :: rest =>
    if retain = false ∧ i.clk = true then
      EncEvent.change
        (if i.clk = i.dt then RotaryEncoderDirection.right else RotaryEncoderDirection.left)
        ((i.now - vt) % 65536) :: specRotationEvents i.clk i.now rest
    else specRotationEvents i.clk vt rest

/-- Number of rising edges in a clock-level sample trace, the level before
the trace being `b`. -/
def risingEdgeCount (b : Bool) : List Bool → Nat
  | [] => 0
  | c :: rest => (if b = false ∧ c = true then 1 else 0) + risingEdgeCount c rest

/-- Auxiliary: the expected event stream has one event per rising edge. -/
theorem specRotationEvents_length (l : List EncInput) :
    ∀ (retain : Bool) (vt : Nat),
      (specRotationEvents retain vt l).length
        = risingEdgeCount retain (l.map (fun i => i.clk)) := by
  induction l with
  | nil => intro retain vt; rfl
  | cons i rest ih =>
    intro retain vt
    rw [specRotationEvents, List.map_cons, risingEdgeCount]
    by_cases hc : retain = false ∧ i.clk = true
    · rw [if_pos hc, if_pos hc, List.length_cons, ih i.clk i.now]
      omega
    · rw [if_neg hc, if_neg hc, ih i.clk vt]
      omega

/-- C7 (amended). From any initialized state, the rotation events of an
`update()` trace are exactly `specRotationEvents`: one event per clock
rising edge (never on a falling edge or a data-only change), direction
`right` exactly when the data line equals the new high clock level, and
reported velocity `(now - previous rotation timestamp) % 2^16` — the time
since the previous rotation event truncated to the 16-bit `word` of the
event struct. -/
theorem rotation_fires_on_rising_edges :
    ∀ (inputs : List EncInput) (s : EncoderState), s.initialized = true →
      (RotaryEncoder.run s inputs).2.filter EncEvent.isChange
          = specRotationEvents s.pinClockRetain s.velocityTime inputs ∧
      ((RotaryEncoder.run s inputs).2.filter EncEvent.isChange).length
          = risingEdgeCount s.pinClockRetain (inputs.map (fun i => i.clk)) := by
  intro inputs
  induction inputs with
  | nil => intro s _; exact ⟨rfl, rfl⟩
  | cons i rest ih =>
    intro s hinit
    obtain ⟨hfil, hpcr, hvt, hini⟩ := update_change_spec s i hinit
    have hmain : (RotaryEncoder.run s (i :: rest)).2.filter EncEvent.isChange
        = specRotationEvents s.pinClockRetain s.velocityTime (i :: rest) := by
      rw [RotaryEncoder.run]
      dsimp only
      rw [List.filter_append, hfil]
      have ih2 := (ih (RotaryEncoder.update s i).1 hini).1
      rw [ih2, hpcr, hvt, specRotationEvents]
      by_cases hc : s.pinClockRetain = false ∧ i.clk = true
      · rw [if_pos hc, if_pos hc, if_pos hc, List.singleton_append]
      · rw [if_neg hc, if_neg hc, if_neg hc, List.nil_append]
    refine ⟨hmain, ?_⟩
    rw [hmain, specRotationEvents_length]

/-- C7 witness: the amended theorem applied from the post-`begin` state
(clock low) to a three-sample trace with rising edges at 1 ms and 65537 ms. -/
theorem rotation_fires_on_rising_edges_witness :
    (RotaryEncoder.run (RotaryEncoder.beginState false true true 0)
        [⟨1, true, true, true⟩, ⟨2, false, true, true⟩,
         ⟨65537, true, true, true⟩]).2.filter EncEvent.isChange
      = specRotationEvents false 0
          [⟨1, true, true, true⟩, ⟨2, false, true, true⟩, ⟨65537, true, true, true⟩] ∧
    ((RotaryEncoder.run (RotaryEncoder.beginState false true true 0)
        [⟨1, true, true, true⟩, ⟨2, false, true, true⟩,
         ⟨65537, true, true, true⟩]).2.filter EncEvent.isChange).length
      = risingEdgeCount false [true, false, true] :=
  rotation_fires_on_rising_edges
    [⟨1, true, true, true⟩, ⟨2, false, true, true⟩, ⟨65537, true, true, true⟩]
    (RotaryEncoder.beginState false true true 0) rfl

/-- C7 (counterexample). Two rising edges 65536 ms apart: the first
rotation event is at 1 ms, the second at 65537 ms, yet the second event
reports velocity 0, not the 65536 ms actually elapsed since the previous
rotation event — the `word` velocity is truncated modulo 2^16. -/
theorem rotation_velocity_counterexample :
    (RotaryEncoder.run (RotaryEncoder.beginState false true true 0)
        [⟨1, true, true, true⟩, ⟨2, false, true, true⟩,
         ⟨65537, true, true, true⟩]).2.filter EncEvent.isChange
      = [EncEvent.change RotaryEncoderDirection.right 1,
         EncEvent.change RotaryEncoderDirection.right 0] ∧
    65537 - 1 ≠ 0 := by
  exact ⟨by decide, by decide⟩

/-- The switch line waveform of one press/release cycle: low (pressed,
active-low) during `[p, r)`, high otherwise. -/
def swWave (p r t : Nat) : Bool :=
  if p ≤ t ∧ t < r then false else true

/-- Inputs of `n` consecutive `update()` calls at times `t0+1, …, t0+n`,
clock and data held high, the switch following the press wave. -/
def cycleInputsFrom (p r t0 : Nat) : Nat → List EncInput
  | 0 => []
  | n + 1 => ⟨t0 + 1, true, true, swWave p r (t0 + 1)⟩ :: cycleInputsFrom p r (t0 + 1) n

/-- One full press/release cycle driven at 1 ms polling: `begin()` at time
0 with all lines high, then updates at times 1..T with the switch low
during `[p, r)`. -/
def pressCycleRun (p r T : Nat) : EncoderState × List EncEvent :=
  RotaryEncoder.run (RotaryEncoder.beginState true true true 0) (cycleInputsFrom p r 0 T)

/-- Closed form of the encoder state after the update at time `t` of the
press cycle with press time `p` and hold `h` (press raw change at `p`,
press debounced at `p+31`, long click at `p+482` when `h ≥ 451`, release
raw change at `p+h`, release debounced at `p+h+31`). -/
def cycleState (p h t : Nat) : EncoderState :=
  { initialized := true
    pinClockRetain := true
    pinDataRetain := true
    pinSwitchRetain := if p + 31 ≤ t ∧ t < p + h + 31 then false else true
    velocityTime := 0
    switchPressTime := if p + 31 ≤ t ∧ t < p + h + 31 then p + 31 else 0
    longClickFired := if 451 ≤ h ∧ p + 482 ≤ t ∧ t < p + h + 31 then true else false
    lastDebounceSwitchTime := if t < p then 0 else if t < p + h then p else p + h
    lastDebounceSwitchState := swWave p (p + h) t }

/-- Closed form of the events emitted by the update at time `t` of the
press cycle. -/
def cycleEvents (p h t : Nat) : List EncEvent :=
  (if 451 ≤ h ∧ t = p + 482 then [EncEvent.longClick] else []) ++
  (if t = p + 31 then [EncEvent.switchAction RotaryEncoderSwitchAction.press]
   else if t = p + h + 31 then
     (if h ≤ 450 then [EncEvent.click] else []) ++
       [EncEvent.switchAction RotaryEncoderSwitchAction.release]
   else [])

/-- Auxiliary: the cycle state before the press raw change. -/
theorem cycleState_idle0 (p h t : Nat) (h1 : t < p) :
    cycleState p h t = ⟨true, true, true, true, 0, 0, false, 0, true⟩ := by
  unfold cycleState swWave
  rw [if_neg (by omega), if_neg (by omega), if_neg (by omega), if_pos (by omega),
    if_neg (by omega)]

/-- Auxiliary: the cycle state while the press is debouncing. -/
theorem cycleState_pressWait (p h t : Nat) (hh : 32 ≤ h) (h1 : p ≤ t) (h2 : t < p + 31) :
    cycleState p h t = ⟨true, true, true, true, 0, 0, false, p, false⟩ := by
  unfold cycleState swWave
  rw [if_neg (by omega), if_neg (by omega), if_neg (by omega), if_neg (by omega),
    if_pos (by omega), if_pos (by omega)]

/-- Auxiliary: the cycle state while the press is held, long click not yet
fired. -/
theorem cycleState_held (p h t : Nat) (h1 : p + 31 ≤ t) (h2 : t < p + h)
    (h3 : ¬ (451 ≤ h ∧ p + 482 ≤ t)) :
    cycleState p h t = ⟨true, true, true, false, 0, p + 31, false, p, false⟩ := by
  unfold cycleState swWave
  rw [if_pos (by omega), if_pos (by omega), if_neg (by omega), if_neg (by omega),
    if_pos (by omega), if_pos (by omega)]

/-- Auxiliary: the cycle state while the press is held, long click fired. -/
theorem cycleState_heldFired (p h t : Nat) (h1 : p + 31 ≤ t) (h2 : t < p + h)
    (h3 : 451 ≤ h) (h4 : p + 482 ≤ t) :
    cycleState p h t = ⟨true, true, true, false, 0, p + 31, true, p, false⟩ := by
  unfold cycleState swWave
  rw [if_pos (by omega), if_pos (by omega), if_pos (by omega), if_neg (by omega),
    if_pos (by omega), if_pos (by omega)]

/-- Auxiliary: the cycle state during the release debounce window, long
click not fired. -/
theorem cycleState_relWaitClean (p h t : Nat) (hh : 32 ≤ h) (h1 : p + h ≤ t)
    (h2 : t < p + h + 31) (h3 : ¬ (451 ≤ h ∧ p + 482 ≤ t)) :
    cycleState p h t = ⟨true, true, true, false, 0, p + 31, false, p + h, true⟩ := by
  unfold cycleState swWave
  rw [if_pos (by omega), if_pos (by omega), if_neg (by omega), if_neg (by omega),
    if_neg (by omega), if_neg (by omega)]

/-- Auxiliary: the cycle state during the release debounce window, long
click fired. -/
theorem cycleState_relWaitFired (p h t : Nat) (hh : 32 ≤ h) (h1 : p + h ≤ t)
    (h2 : t < p + h + 31) (h3 : 451 ≤ h) (h4 : p + 482 ≤ t) :
    cycleState p h t = ⟨true, true, true, false, 0, p + 31, true, p + h, true⟩ := by
  unfold cycleState swWave
  rw [if_pos (by omega), if_pos (by omega), if_pos (by omega), if_neg (by omega),
    if_neg (by omega), if_neg (by omega)]

/-- Auxiliary: the cycle state after the release is debounced. -/
theorem cycleState_idleEnd (p h t : Nat) (hp : 1 ≤ p) (h1 : p + h + 31 ≤ t) :
    cycleState p h t = ⟨true, true, true, true, 0, 0, false, p + h, true⟩ := by
  unfold cycleState swWave
  rw [if_neg (by omega), if_neg (by omega), if_neg (by omega), if_neg (by omega),
    if_neg (by omega), if_neg (by omega)]

/-- Auxiliary: the switch wave while released. -/
theorem swWave_high (p r t : Nat) (h : ¬ (p ≤ t ∧ t < r)) : swWave p r t = true :=
  if_neg h

/-- Auxiliary: the switch wave while pressed. -/
theorem swWave_low (p r t : Nat) (h : p ≤ t ∧ t < r) : swWave p r t = false :=
  if_pos h


set_option maxHeartbeats 1600000 in
/-- Auxiliary: one update of the press cycle steps the closed-form state
and emits the closed-form events. -/
theorem cycle_step (p h : Nat) (hp : 1 ≤ p) (hh : 32 ≤ h) (t : Nat) :
    RotaryEncoder.update (cycleState p h t) ⟨t + 1, true, true, swWave p (p + h) (t + 1)⟩
      = (cycleState p h (t + 1), cycleEvents p h (t + 1)) := by
  by_cases c1 : t + 1 < p
  · -- idle before the press
    rw [cycleState_idle0 p h t (by omega)]
    rw [swWave_high p (p + h) (t + 1) (by omega)]
    rw [cycleState_idle0 p h (t + 1) (by omega)]
    have hev : cycleEvents p h (t + 1) = [] ++ [] := by
      unfold cycleEvents
      rw [if_neg (by omega), if_neg (by omega), if_neg (by omega)]
    rw [hev]
    unfold RotaryEncoder.update RotaryEncoder.rotationStep RotaryEncoder.longClickStep
      RotaryEncoder.switchStep RotaryEncoder.debounceStep ROTARY_ENCODER_LONG_CLICK_MILLIS
      ROTARY_ENCODER_SWITCH_DEBOUNCE_TIME
    dsimp only
    rw [if_neg (show ¬ ((true : Bool) = false) from by simp)]
    try dsimp only
    rw [if_neg (show ¬ ((true : Bool) ≠ true) from by simp)]
    try dsimp only
    rw [if_neg (show ¬ ((0 : Nat) > 0 ∧ (false : Bool) = false ∧ t + 1 - 0 > 450) from by
      rintro ⟨hx, -, -⟩
      omega)]
    try dsimp only
    rw [if_neg (show ¬ ((true : Bool) ≠ true) from by simp)]
    try dsimp only
    by_cases hst : t + 1 - 0 > 30
    · rw [if_pos hst]
      try dsimp only
      rw [if_neg (show ¬ ((true : Bool) ≠ true) from by simp)]
      try dsimp only
      first
      | rfl
      | (simp only [Prod.mk.injEq, EncoderState.mk.injEq]
         and_intros <;> first | rfl | trivial | omega)
    · rw [if_neg hst]
      try dsimp only
      first
      | rfl
      | (simp only [Prod.mk.injEq, EncoderState.mk.injEq]
         and_intros <;> first | rfl | trivial | omega)
  by_cases c2 : t + 1 = p
  · -- press raw change
    rw [cycleState_idle0 p h t (by omega)]
    rw [swWave_low p (p + h) (t + 1) (by omega)]
    rw [cycleState_pressWait p h (t + 1) hh (by omega) (by omega)]
    have hev : cycleEvents p h (t + 1) = [] ++ [] := by
      unfold cycleEvents
      rw [if_neg (by omega), if_neg (by omega), if_neg (by omega)]
    rw [hev]
    unfold RotaryEncoder.update RotaryEncoder.rotationStep RotaryEncoder.longClickStep
      RotaryEncoder.switchStep RotaryEncoder.debounceStep ROTARY_ENCODER_LONG_CLICK_MILLIS
      ROTARY_ENCODER_SWITCH_DEBOUNCE_TIME
    dsimp only
    rw [if_neg (show ¬ ((true : Bool) = false) from by simp)]
    try dsimp only
    rw [if_neg (show ¬ ((true : Bool) ≠ true) from by simp)]
    try dsimp only
    rw [if_neg (show ¬ ((0 : Nat) > 0 ∧ (false : Bool) = false ∧ t + 1 - 0 > 450) from by
      rintro ⟨hx, -, -⟩
      omega)]
    try dsimp only
    rw [if_pos (show (false : Bool) ≠ true from by simp)]
    try dsimp only
    rw [if_neg (show ¬ (t + 1 - (t + 1) > 30) from by omega)]
    try dsimp only
    first
    | rfl
    | (simp only [Prod.mk.injEq, EncoderState.mk.injEq]
       and_intros <;> first | rfl | trivial | omega)
  by_cases c3 : t + 1 < p + 31
  · -- press debouncing
    rw [cycleState_pressWait p h t hh (by omega) (by omega)]
    rw [swWave_low p (p + h) (t + 1) (by omega)]
    rw [cycleState_pressWait p h (t + 1) hh (by omega) (by omega)]
    have hev : cycleEvents p h (t + 1) = [] ++ [] := by
      unfold cycleEvents
      rw [if_neg (by omega), if_neg (by omega), if_neg (by omega)]
    rw [hev]
    unfold RotaryEncoder.update RotaryEncoder.rotationStep RotaryEncoder.longClickStep
      RotaryEncoder.switchStep RotaryEncoder.debounceStep ROTARY_ENCODER_LONG_CLICK_MILLIS
      ROTARY_ENCODER_SWITCH_DEBOUNCE_TIME
    dsimp only
    rw [if_neg (show ¬ ((true : Bool) = false) from by simp)]
    try dsimp only
    rw [if_neg (show ¬ ((true : Bool) ≠ true) from by simp)]
    try dsimp only
    rw [if_neg (show ¬ ((0 : Nat) > 0 ∧ (false : Bool) = false ∧ t + 1 - 0 > 450) from by
      rintro ⟨hx, -, -⟩
      omega)]
    try dsimp only
    rw [if_neg (show ¬ ((false : Bool) ≠ false) from by simp)]
    try dsimp only
    rw [if_neg (show ¬ (t + 1 - p > 30) from by omega)]
    try dsimp only
    first
    | rfl
    | (simp only [Prod.mk.injEq, EncoderState.mk.injEq]
       and_intros <;> first | rfl | trivial | omega)
  by_cases c4 : t + 1 = p + 31
  · -- press detected
    rw [cycleState_pressWait p h t hh (by omega) (by omega)]
    rw [swWave_low p (p + h) (t + 1) (by omega)]
    rw [cycleState_held p h (t + 1) (by omega) (by omega) (by omega)]
    have hev : cycleEvents p h (t + 1) = [] ++ [EncEvent.switchAction RotaryEncoderSwitchAction.press] := by
      unfold cycleEvents
      rw [if_neg (by omega), if_pos (by omega)]
    rw [hev]
    unfold RotaryEncoder.update RotaryEncoder.rotationStep RotaryEncoder.longClickStep
      RotaryEncoder.switchStep RotaryEncoder.debounceStep ROTARY_ENCODER_LONG_CLICK_MILLIS
      ROTARY_ENCODER_SWITCH_DEBOUNCE_TIME
    dsimp only
    rw [if_neg (show ¬ ((true : Bool) = false) from by simp)]
    try dsimp only
    rw [if_neg (show ¬ ((true : Bool) ≠ true) from by simp)]
    try dsimp only
    rw [if_neg (show ¬ ((0 : Nat) > 0 ∧ (false : Bool) = false ∧ t + 1 - 0 > 450) from by
      rintro ⟨hx, -, -⟩
      omega)]
    try dsimp only
    rw [if_neg (show ¬ ((false : Bool) ≠ false) from by simp)]
    try dsimp only
    rw [if_pos (show t + 1 - p > 30 from by omega)]
    try dsimp only
    rw [if_pos (show (true : Bool) ≠ false from by simp)]
    try dsimp only
    rw [if_neg (show ¬ ((false : Bool) = true) from by simp)]
    try dsimp only
    first
    | rfl
    | (simp only [Prod.mk.injEq, EncoderState.mk.injEq]
       and_intros <;> first | rfl | trivial | omega)
  by_cases c5 : t + 1 < p + h
  · by_cases c6 : t + 1 = p + 482
    · -- long click fires during the hold
      rw [cycleState_held p h t (by omega) (by omega) (by omega)]
      rw [swWave_low p (p + h) (t + 1) (by omega)]
      rw [cycleState_heldFired p h (t + 1) (by omega) (by omega) (by omega) (by omega)]
      have hev : cycleEvents p h (t + 1) = [EncEvent.longClick] ++ [] := by
        unfold cycleEvents
        rw [if_pos ⟨(by omega), (by omega)⟩, if_neg (by omega), if_neg (by omega)]
      rw [hev]
      unfold RotaryEncoder.update RotaryEncoder.rotationStep RotaryEncoder.longClickStep
        RotaryEncoder.switchStep RotaryEncoder.debounceStep ROTARY_ENCODER_LONG_CLICK_MILLIS
        ROTARY_ENCODER_SWITCH_DEBOUNCE_TIME
      dsimp only
      rw [if_neg (show ¬ ((true : Bool) = false) from by simp)]
      try dsimp only
      rw [if_neg (show ¬ ((true : Bool) ≠ true) from by simp)]
      try dsimp only
      rw [if_pos (show p + 31 > 0 ∧ (false : Bool) = false ∧ t + 1 - (p + 31) > 450 from
        ⟨by omega, rfl, by omega⟩)]
      try dsimp only
      rw [if_neg (show ¬ ((false : Bool) ≠ false) from by simp)]
      try dsimp only
      rw [if_pos (show t + 1 - p > 30 from by omega)]
      try dsimp only
      rw [if_neg (show ¬ ((false : Bool) ≠ false) from by simp)]
      try dsimp only
      first
      | rfl
      | (simp only [Prod.mk.injEq, EncoderState.mk.injEq]
         and_intros <;> first | rfl | trivial | omega)
    by_cases c7 : p + 482 < t + 1
    · -- held after the long click
      rw [cycleState_heldFired p h t (by omega) (by omega) (by omega) (by omega)]
      rw [swWave_low p (p + h) (t + 1) (by omega)]
      rw [cycleState_heldFired p h (t + 1) (by omega) (by omega) (by omega) (by omega)]
      have hev : cycleEvents p h (t + 1) = [] ++ [] := by
        unfold cycleEvents
        rw [if_neg (by omega), if_neg (by omega), if_neg (by omega)]
      rw [hev]
      unfold RotaryEncoder.update RotaryEncoder.rotationStep RotaryEncoder.longClickStep
        RotaryEncoder.switchStep RotaryEncoder.debounceStep ROTARY_ENCODER_LONG_CLICK_MILLIS
        ROTARY_ENCODER_SWITCH_DEBOUNCE_TIME
      dsimp only
      rw [if_neg (show ¬ ((true : Bool) = false) from by simp)]
      try dsimp only
      rw [if_neg (show ¬ ((true : Bool) ≠ true) from by simp)]
      try dsimp only
      rw [if_neg (show ¬ (p + 31 > 0 ∧ (true : Bool) = false ∧ t + 1 - (p + 31) > 450) from by
        rintro ⟨-, hx, -⟩
        exact Bool.noConfusion hx)]
      try dsimp only
      rw [if_neg (show ¬ ((false : Bool) ≠ false) from by simp)]
      try dsimp only
      rw [if_pos (show t + 1 - p > 30 from by omega)]
      try dsimp only
      rw [if_neg (show ¬ ((false : Bool) ≠ false) from by simp)]
      try dsimp only
      first
      | rfl
      | (simp only [Prod.mk.injEq, EncoderState.mk.injEq]
         and_intros <;> first | rfl | trivial | omega)
    · -- held quietly
      rw [cycleState_held p h t (by omega) (by omega) (by omega)]
      rw [swWave_low p (p + h) (t + 1) (by omega)]
      rw [cycleState_held p h (t + 1) (by omega) (by omega) (by omega)]
      have hev : cycleEvents p h (t + 1) = [] ++ [] := by
        unfold cycleEvents
        rw [if_neg (by omega), if_neg (by omega), if_neg (by omega)]
      rw [hev]
      unfold RotaryEncoder.update RotaryEncoder.rotationStep RotaryEncoder.longClickStep
        RotaryEncoder.switchStep RotaryEncoder.debounceStep ROTARY_ENCODER_LONG_CLICK_MILLIS
        ROTARY_ENCODER_SWITCH_DEBOUNCE_TIME
      dsimp only
      rw [if_neg (show ¬ ((true : Bool) = false) from by simp)]
      try dsimp only
      rw [if_neg (show ¬ ((true : Bool) ≠ true) from by simp)]
      try dsimp only
      rw [if_neg (show ¬ (p + 31 > 0 ∧ (false : Bool) = false ∧ t + 1 - (p + 31) > 450) from by
        rintro ⟨-, -, hx⟩
        omega)]
      try dsimp only
      rw [if_neg (show ¬ ((false : Bool) ≠ false) from by simp)]
      try dsimp only
      rw [if_pos (show t + 1 - p > 30 from by omega)]
      try dsimp only
      rw [if_neg (show ¬ ((false : Bool) ≠ false) from by simp)]
      try dsimp only
      first
      | rfl
      | (simp only [Prod.mk.injEq, EncoderState.mk.injEq]
         and_intros <;> first | rfl | trivial | omega)
  by_cases c8 : t + 1 = p + h
  · by_cases c8a : h ≤ 481
    · -- release raw change, long click never fired
      rw [cycleState_held p h t (by omega) (by omega) (by omega)]
      rw [swWave_high p (p + h) (t + 1) (by omega)]
      rw [cycleState_relWaitClean p h (t + 1) hh (by omega) (by omega) (by omega)]
      have hev : cycleEvents p h (t + 1) = [] ++ [] := by
        unfold cycleEvents
        rw [if_neg (by omega), if_neg (by omega), if_neg (by omega)]
      rw [hev]
      unfold RotaryEncoder.update RotaryEncoder.rotationStep RotaryEncoder.longClickStep
        RotaryEncoder.switchStep RotaryEncoder.debounceStep ROTARY_ENCODER_LONG_CLICK_MILLIS
        ROTARY_ENCODER_SWITCH_DEBOUNCE_TIME
      dsimp only
      rw [if_neg (show ¬ ((true : Bool) = false) from by simp)]
      try dsimp only
      rw [if_neg (show ¬ ((true : Bool) ≠ true) from by simp)]
      try dsimp only
      rw [if_neg (show ¬ (p + 31 > 0 ∧ (false : Bool) = false ∧ t + 1 - (p + 31) > 450) from by
        rintro ⟨-, -, hx⟩
        omega)]
      try dsimp only
      rw [if_pos (show (true : Bool) ≠ false from by simp)]
      try dsimp only
      rw [if_neg (show ¬ (t + 1 - (t + 1) > 30) from by omega)]
      try dsimp only
      first
      | rfl
      | (simp only [Prod.mk.injEq, EncoderState.mk.injEq]
         and_intros <;> first | rfl | trivial | omega)
    by_cases c8b : h = 482
    · -- long click fires on the raw release tick
      rw [cycleState_held p h t (by omega) (by omega) (by omega)]
      rw [swWave_high p (p + h) (t + 1) (by omega)]
      rw [cycleState_relWaitFired p h (t + 1) hh (by omega) (by omega) (by omega) (by omega)]
      have hev : cycleEvents p h (t + 1) = [EncEvent.longClick] ++ [] := by
        unfold cycleEvents
        rw [if_pos ⟨(by omega), (by omega)⟩, if_neg (by omega), if_neg (by omega)]
      rw [hev]
      unfold RotaryEncoder.update RotaryEncoder.rotationStep RotaryEncoder.longClickStep
        RotaryEncoder.switchStep RotaryEncoder.debounceStep ROTARY_ENCODER_LONG_CLICK_MILLIS
        ROTARY_ENCODER_SWITCH_DEBOUNCE_TIME
      dsimp only
      rw [if_neg (show ¬ ((true : Bool) = false) from by simp)]
      try dsimp only
      rw [if_neg (show ¬ ((true : Bool) ≠ true) from by simp)]
      try dsimp only
      rw [if_pos (show p + 31 > 0 ∧ (false : Bool) = false ∧ t + 1 - (p + 31) > 450 from
        ⟨by omega, rfl, by omega⟩)]
      try dsimp only
      rw [if_pos (show (true : Bool) ≠ false from by simp)]
      try dsimp only
      rw [if_neg (show ¬ (t + 1 - (t + 1) > 30) from by omega)]
      try dsimp only
      first
      | rfl
      | (simp only [Prod.mk.injEq, EncoderState.mk.injEq]
         and_intros <;> first | rfl | trivial | omega)
    · -- release raw change after the long click
      rw [cycleState_heldFired p h t (by omega) (by omega) (by omega) (by omega)]
      rw [swWave_high p (p + h) (t + 1) (by omega)]
      rw [cycleState_relWaitFired p h (t + 1) hh (by omega) (by omega) (by omega) (by omega)]
      have hev : cycleEvents p h (t + 1) = [] ++ [] := by
        unfold cycleEvents
        rw [if_neg (by omega), if_neg (by omega), if_neg (by omega)]
      rw [hev]
      unfold RotaryEncoder.update RotaryEncoder.rotationStep RotaryEncoder.longClickStep
        RotaryEncoder.switchStep RotaryEncoder.debounceStep ROTARY_ENCODER_LONG_CLICK_MILLIS
        ROTARY_ENCODER_SWITCH_DEBOUNCE_TIME
      dsimp only
      rw [if_neg (show ¬ ((true : Bool) = false) from by simp)]
      try dsimp only
      rw [if_neg (show ¬ ((true : Bool) ≠ true) from by simp)]
      try dsimp only
      rw [if_neg (show ¬ (p + 31 > 0 ∧ (true : Bool) = false ∧ t + 1 - (p + 31) > 450) from by
        rintro ⟨-, hx, -⟩
        exact Bool.noConfusion hx)]
      try dsimp only
      rw [if_pos (show (true : Bool) ≠ false from by simp)]
      try dsimp only
      rw [if_neg (show ¬ (t + 1 - (t + 1) > 30) from by omega)]
      try dsimp only
      first
      | rfl
      | (simp only [Prod.mk.injEq, EncoderState.mk.injEq]
         and_intros <;> first | rfl | trivial | omega)
  by_cases c9 : t + 1 < p + h + 31
  · by_cases c9a : 451 ≤ h ∧ p + 482 ≤ t
    · -- release debouncing after the long click
      rw [cycleState_relWaitFired p h t hh (by omega) (by omega) (by omega) (by omega)]
      rw [swWave_high p (p + h) (t + 1) (by omega)]
      rw [cycleState_relWaitFired p h (t + 1) hh (by omega) (by omega) (by omega) (by omega)]
      have hev : cycleEvents p h (t + 1) = [] ++ [] := by
        unfold cycleEvents
        rw [if_neg (by omega), if_neg (by omega), if_neg (by omega)]
      rw [hev]
      unfold RotaryEncoder.update RotaryEncoder.rotationStep RotaryEncoder.longClickStep
        RotaryEncoder.switchStep RotaryEncoder.debounceStep ROTARY_ENCODER_LONG_CLICK_MILLIS
        ROTARY_ENCODER_SWITCH_DEBOUNCE_TIME
      dsimp only
      rw [if_neg (show ¬ ((true : Bool) = false) from by simp)]
      try dsimp only
      rw [if_neg (show ¬ ((true : Bool) ≠ true) from by simp)]
      try dsimp only
      rw [if_neg (show ¬ (p + 31 > 0 ∧ (true : Bool) = false ∧ t + 1 - (p + 31) > 450) from by
        rintro ⟨-, hx, -⟩
        exact Bool.noConfusion hx)]
      try dsimp only
      rw [if_neg (show ¬ ((true : Bool) ≠ true) from by simp)]
      try dsimp only
      rw [if_neg (show ¬ (t + 1 - (p + h) > 30) from by omega)]
      try dsimp only
      first
      | rfl
      | (simp only [Prod.mk.injEq, EncoderState.mk.injEq]
         and_intros <;> first | rfl | trivial | omega)
    by_cases c9b : t + 1 = p + 482
    · -- long click fires inside the release window
      rw [cycleState_relWaitClean p h t hh (by omega) (by omega) (by omega)]
      rw [swWave_high p (p + h) (t + 1) (by omega)]
      rw [cycleState_relWaitFired p h (t + 1) hh (by omega) (by omega) (by omega) (by omega)]
      have hev : cycleEvents p h (t + 1) = [EncEvent.longClick] ++ [] := by
        unfold cycleEvents
        rw [if_pos ⟨(by omega), (by omega)⟩, if_neg (by omega), if_neg (by omega)]
      rw [hev]
      unfold RotaryEncoder.update RotaryEncoder.rotationStep RotaryEncoder.longClickStep
        RotaryEncoder.switchStep RotaryEncoder.debounceStep ROTARY_ENCODER_LONG_CLICK_MILLIS
        ROTARY_ENCODER_SWITCH_DEBOUNCE_TIME
      dsimp only
      rw [if_neg (show ¬ ((true : Bool) = false) from by simp)]
      try dsimp only
      rw [if_neg (show ¬ ((true : Bool) ≠ true) from by simp)]
      try dsimp only
      rw [if_pos (show p + 31 > 0 ∧ (false : Bool) = false ∧ t + 1 - (p + 31) > 450 from
        ⟨by omega, rfl, by omega⟩)]
      try dsimp only
      rw [if_neg (show ¬ ((true : Bool) ≠ true) from by simp)]
      try dsimp only
      rw [if_neg (show ¬ (t + 1 - (p + h) > 30) from by omega)]
      try dsimp only
      first
      | rfl
      | (simp only [Prod.mk.injEq, EncoderState.mk.injEq]
         and_intros <;> first | rfl | trivial | omega)
    · -- short press, release debouncing
      rw [cycleState_relWaitClean p h t hh (by omega) (by omega) (by omega)]
      rw [swWave_high p (p + h) (t + 1) (by omega)]
      rw [cycleState_relWaitClean p h (t + 1) hh (by omega) (by omega) (by omega)]
      have hev : cycleEvents p h (t + 1) = [] ++ [] := by
        unfold cycleEvents
        rw [if_neg (by omega), if_neg (by omega), if_neg (by omega)]
      rw [hev]
      unfold RotaryEncoder.update RotaryEncoder.rotationStep RotaryEncoder.longClickStep
        RotaryEncoder.switchStep RotaryEncoder.debounceStep ROTARY_ENCODER_LONG_CLICK_MILLIS
        ROTARY_ENCODER_SWITCH_DEBOUNCE_TIME
      dsimp only
      rw [if_neg (show ¬ ((true : Bool) = false) from by simp)]
      try dsimp only
      rw [if_neg (show ¬ ((true : Bool) ≠ true) from by simp)]
      try dsimp only
      rw [if_neg (show ¬ (p + 31 > 0 ∧ (false : Bool) = false ∧ t + 1 - (p + 31) > 450) from by
        rintro ⟨-, -, hx⟩
        omega)]
      try dsimp only
      rw [if_neg (show ¬ ((true : Bool) ≠ true) from by simp)]
      try dsimp only
      rw [if_neg (show ¬ (t + 1 - (p + h) > 30) from by omega)]
      try dsimp only
      first
      | rfl
      | (simp only [Prod.mk.injEq, EncoderState.mk.injEq]
         and_intros <;> first | rfl | trivial | omega)
  by_cases c10 : t + 1 = p + h + 31
  · by_cases c10a : h ≤ 450
    · -- short press: click then release
      rw [cycleState_relWaitClean p h t hh (by omega) (by omega) (by omega)]
      rw [swWave_high p (p + h) (t + 1) (by omega)]
      rw [cycleState_idleEnd p h (t + 1) hp (by omega)]
      have hev : cycleEvents p h (t + 1) = [] ++ ([EncEvent.click] ++ [EncEvent.switchAction RotaryEncoderSwitchAction.release]) := by
        unfold cycleEvents
        rw [if_neg (by omega), if_neg (by omega), if_pos (by omega), if_pos (by omega)]
      rw [hev]
      unfold RotaryEncoder.update RotaryEncoder.rotationStep RotaryEncoder.longClickStep
        RotaryEncoder.switchStep RotaryEncoder.debounceStep ROTARY_ENCODER_LONG_CLICK_MILLIS
        ROTARY_ENCODER_SWITCH_DEBOUNCE_TIME
      dsimp only
      rw [if_neg (show ¬ ((true : Bool) = false) from by simp)]
      try dsimp only
      rw [if_neg (show ¬ ((true : Bool) ≠ true) from by simp)]
      try dsimp only
      rw [if_neg (show ¬ (p + 31 > 0 ∧ (false : Bool) = false ∧ t + 1 - (p + 31) > 450) from by
        rintro ⟨-, -, hx⟩
        omega)]
      try dsimp only
      rw [if_neg (show ¬ ((true : Bool) ≠ true) from by simp)]
      try dsimp only
      rw [if_pos (show t + 1 - (p + h) > 30 from by omega)]
      try dsimp only
      rw [if_pos (show (false : Bool) ≠ true from by simp)]
      try dsimp only
      rw [if_pos (show (true : Bool) = true from rfl)]
      try dsimp only
      rw [if_pos (show (false : Bool) = false from rfl)]
      try dsimp only
      first
      | rfl
      | (simp only [Prod.mk.injEq, EncoderState.mk.injEq]
         and_intros <;> first | rfl | trivial | omega)
    by_cases c10b : h = 451
    · -- boundary hold: long click on the release tick, no click
      rw [cycleState_relWaitClean p h t hh (by omega) (by omega) (by omega)]
      rw [swWave_high p (p + h) (t + 1) (by omega)]
      rw [cycleState_idleEnd p h (t + 1) hp (by omega)]
      have hev : cycleEvents p h (t + 1) = [EncEvent.longClick] ++ ([] ++ [EncEvent.switchAction RotaryEncoderSwitchAction.release]) := by
        unfold cycleEvents
        rw [if_pos ⟨(by omega), (by omega)⟩, if_neg (by omega), if_pos (by omega), if_neg (by omega)]
      rw [hev]
      unfold RotaryEncoder.update RotaryEncoder.rotationStep RotaryEncoder.longClickStep
        RotaryEncoder.switchStep RotaryEncoder.debounceStep ROTARY_ENCODER_LONG_CLICK_MILLIS
        ROTARY_ENCODER_SWITCH_DEBOUNCE_TIME
      dsimp only
      rw [if_neg (show ¬ ((true : Bool) = false) from by simp)]
      try dsimp only
      rw [if_neg (show ¬ ((true : Bool) ≠ true) from by simp)]
      try dsimp only
      rw [if_pos (show p + 31 > 0 ∧ (false : Bool) = false ∧ t + 1 - (p + 31) > 450 from
        ⟨by omega, rfl, by omega⟩)]
      try dsimp only
      rw [if_neg (show ¬ ((true : Bool) ≠ true) from by simp)]
      try dsimp only
      rw [if_pos (show t + 1 - (p + h) > 30 from by omega)]
      try dsimp only
      rw [if_pos (show (false : Bool) ≠ true from by simp)]
      try dsimp only
      rw [if_pos (show (true : Bool) = true from rfl)]
      try dsimp only
      rw [if_neg (show ¬ ((true : Bool) = false) from by simp)]
      try dsimp only
      first
      | rfl
      | (simp only [Prod.mk.injEq, EncoderState.mk.injEq]
         and_intros <;> first | rfl | trivial | omega)
    · -- long press: release only
      rw [cycleState_relWaitFired p h t hh (by omega) (by omega) (by omega) (by omega)]
      rw [swWave_high p (p + h) (t + 1) (by omega)]
      rw [cycleState_idleEnd p h (t + 1) hp (by omega)]
      have hev : cycleEvents p h (t + 1) = [] ++ ([] ++ [EncEvent.switchAction RotaryEncoderSwitchAction.release]) := by
        unfold cycleEvents
        rw [if_neg (by omega), if_neg (by omega), if_pos (by omega), if_neg (by omega)]
      rw [hev]
      unfold RotaryEncoder.update RotaryEncoder.rotationStep RotaryEncoder.longClickStep
        RotaryEncoder.switchStep RotaryEncoder.debounceStep ROTARY_ENCODER_LONG_CLICK_MILLIS
        ROTARY_ENCODER_SWITCH_DEBOUNCE_TIME
      dsimp only
      rw [if_neg (show ¬ ((true : Bool) = false) from by simp)]
      try dsimp only
      rw [if_neg (show ¬ ((true : Bool) ≠ true) from by simp)]
      try dsimp only
      rw [if_neg (show ¬ (p + 31 > 0 ∧ (true : Bool) = false ∧ t + 1 - (p + 31) > 450) from by
        rintro ⟨-, hx, -⟩
        exact Bool.noConfusion hx)]
      try dsimp only
      rw [if_neg (show ¬ ((true : Bool) ≠ true) from by simp)]
      try dsimp only
      rw [if_pos (show t + 1 - (p + h) > 30 from by omega)]
      try dsimp only
      rw [if_pos (show (false : Bool) ≠ true from by simp)]
      try dsimp only
      rw [if_pos (show (true : Bool) = true from rfl)]
      try dsimp only
      rw [if_neg (show ¬ ((true : Bool) = false) from by simp)]
      try dsimp only
      first
      | rfl
      | (simp only [Prod.mk.injEq, EncoderState.mk.injEq]
         and_intros <;> first | rfl | trivial | omega)
  · -- idle after the cycle
    rw [cycleState_idleEnd p h t hp (by omega)]
    rw [swWave_high p (p + h) (t + 1) (by omega)]
    rw [cycleState_idleEnd p h (t + 1) hp (by omega)]
    have hev : cycleEvents p h (t + 1) = [] ++ [] := by
      unfold cycleEvents
      rw [if_neg (by omega), if_neg (by omega), if_neg (by omega)]
    rw [hev]
    unfold RotaryEncoder.update RotaryEncoder.rotationStep RotaryEncoder.longClickStep
      RotaryEncoder.switchStep RotaryEncoder.debounceStep ROTARY_ENCODER_LONG_CLICK_MILLIS
      ROTARY_ENCODER_SWITCH_DEBOUNCE_TIME
    dsimp only
    rw [if_neg (show ¬ ((true : Bool) = false) from by simp)]
    try dsimp only
    rw [if_neg (show ¬ ((true : Bool) ≠ true) from by simp)]
    try dsimp only
    rw [if_neg (show ¬ ((0 : Nat) > 0 ∧ (false : Bool) = false ∧ t + 1 - 0 > 450) from by
      rintro ⟨hx, -, -⟩
      omega)]
    try dsimp only
    rw [if_neg (show ¬ ((true : Bool) ≠ true) from by simp)]
    try dsimp only
    rw [if_pos (show t + 1 - (p + h) > 30 from by omega)]
    try dsimp only
    rw [if_neg (show ¬ ((true : Bool) ≠ true) from by simp)]
    try dsimp only
    first
    | rfl
    | (simp only [Prod.mk.injEq, EncoderState.mk.injEq]
       and_intros <;> first | rfl | trivial | omega)

/-- Auxiliary: the closed-form state at time 0 is the post-`begin` state. -/
theorem cycleState_zero (p h : Nat) (hp : 1 ≤ p) :
    cycleState p h 0 = RotaryEncoder.beginState true true true 0 := by
  unfold cycleState RotaryEncoder.beginState swWave
  rw [if_neg (by omega), if_neg (by omega), if_neg (by omega), if_pos (by omega),
    if_neg (by omega)]

/-- Events emitted by the updates at times `t0+1, …, t0+n` of the cycle. -/
def cycleEventsFrom (p h t0 : Nat) : Nat → List EncEvent
  | 0 => []
  | n + 1 => cycleEvents p h (t0 + 1) ++ cycleEventsFrom p h (t0 + 1) n

/-- Auxiliary: running the cycle from the closed-form state follows the
closed form. -/
theorem cycle_run (p h : Nat) (hp : 1 ≤ p) (hh : 32 ≤ h) :
    ∀ (n t0 : Nat),
      RotaryEncoder.run (cycleState p h t0) (cycleInputsFrom p (p + h) t0 n)
        = (cycleState p h (t0 + n), cycleEventsFrom p h t0 n) := by
  intro n
  induction n with
  | zero =>
    intro t0
    rfl
  | succ n ih =>
    intro t0
    rw [cycleInputsFrom, RotaryEncoder.run]
    try dsimp only
    rw [cycle_step p h hp hh t0]
    try dsimp only
    rw [ih (t0 + 1), cycleEventsFrom]
    have h2 : t0 + 1 + n = t0 + (n + 1) := by omega
    rw [h2]

/-- Auxiliary: clicks of one cycle tick — exactly one, at the debounced
release of a press held at most 450 ms. -/
theorem countP_isClick_cycleEvents (p h t : Nat) (hh : 32 ≤ h) :
    (cycleEvents p h t).countP EncEvent.isClick
      = if t = p + h + 31 ∧ h ≤ 450 then 1 else 0 := by
  unfold cycleEvents
  split_ifs <;> first | rfl | (exfalso; omega)

/-- Auxiliary: long clicks of one cycle tick — exactly one, 451 ms after
the debounced press when the press is held long enough. -/
theorem countP_isLongClick_cycleEvents (p h t : Nat) (hh : 32 ≤ h) :
    (cycleEvents p h t).countP EncEvent.isLongClick
      = if 451 ≤ h ∧ t = p + 482 then 1 else 0 := by
  unfold cycleEvents
  split_ifs <;> first | rfl | (exfalso; omega)

/-- Auxiliary: total clicks of a cycle segment. -/
theorem countP_click_cycleEventsFrom (p h : Nat) (hh : 32 ≤ h) :
    ∀ (n t0 : Nat),
      (cycleEventsFrom p h t0 n).countP EncEvent.isClick
        = if t0 < p + h + 31 ∧ p + h + 31 ≤ t0 + n ∧ h ≤ 450 then 1 else 0 := by
  intro n
  induction n with
  | zero =>
    intro t0
    rw [cycleEventsFrom, if_neg (by omega)]
    rfl
  | succ n ih =>
    intro t0
    rw [cycleEventsFrom, List.countP_append, ih (t0 + 1),
      countP_isClick_cycleEvents p h (t0 + 1) hh]
    split_ifs <;> omega

/-- Auxiliary: total long clicks of a cycle segment. -/
theorem countP_longClick_cycleEventsFrom (p h : Nat) (hh : 32 ≤ h) :
    ∀ (n t0 : Nat),
      (cycleEventsFrom p h t0 n).countP EncEvent.isLongClick
        = if t0 < p + 482 ∧ p + 482 ≤ t0 + n ∧ 451 ≤ h then 1 else 0 := by
  intro n
  induction n with
  | zero =>
    intro t0
    rw [cycleEventsFrom, if_neg (by omega)]
    rfl
  | succ n ih =>
    intro t0
    rw [cycleEventsFrom, List.countP_append, ih (t0 + 1),
      countP_isLongClick_cycleEvents p h (t0 + 1) hh]
    split_ifs <;> omega

/-- Auxiliary: the whole cycle run in closed form. -/
theorem pressCycleRun_eq (p h T : Nat) (hp : 1 ≤ p) (hh : 32 ≤ h) :
    pressCycleRun p (p + h) T = (cycleState p h T, cycleEventsFrom p h 0 T) := by
  unfold pressCycleRun
  rw [← cycleState_zero p h hp]
  have h2 := cycle_run p h hp hh T 0
  simpa using h2

/-- C2 (amended). In a press/release cycle polled every millisecond (press
from `p` for `h` ms, run long enough to debounce the release): when the
press is held strictly longer than 450 ms, exactly one long click fires and
no click; when it is held at most 450 ms (but at least 32 ms, so the
debouncer accepts it), exactly one click fires on release and no long
click. -/
theorem press_click_long_click_exclusive (p h T : Nat) (hp : 1 ≤ p) (hh : 32 ≤ h)
    (hT : p + h + 31 ≤ T) :
    (450 < h → (pressCycleRun p (p + h) T).2.countP EncEvent.isLongClick = 1 ∧
      (pressCycleRun p (p + h) T).2.countP EncEvent.isClick = 0) ∧
    (h ≤ 450 → (pressCycleRun p (p + h) T).2.countP EncEvent.isClick = 1 ∧
      (pressCycleRun p (p + h) T).2.countP EncEvent.isLongClick = 0) := by
  rw [pressCycleRun_eq p h T hp hh]
  constructor
  · intro h450
    constructor
    · rw [countP_longClick_cycleEventsFrom p h hh T 0, if_pos (by omega)]
    · rw [countP_click_cycleEventsFrom p h hh T 0, if_neg (by omega)]
  · intro h450
    constructor
    · rw [countP_click_cycleEventsFrom p h hh T 0, if_pos (by omega)]
    · rw [countP_longClick_cycleEventsFrom p h hh T 0, if_neg (by omega)]

/-- C2 witness: a 32 ms press starting at 1 ms, run for 64 ms, yields
exactly one click and no long click. -/
theorem press_click_long_click_exclusive_witness :
    (450 < 32 → (pressCycleRun 1 (1 + 32) 64).2.countP EncEvent.isLongClick = 1 ∧
      (pressCycleRun 1 (1 + 32) 64).2.countP EncEvent.isClick = 0) ∧
    (32 ≤ 450 → (pressCycleRun 1 (1 + 32) 64).2.countP EncEvent.isClick = 1 ∧
      (pressCycleRun 1 (1 + 32) 64).2.countP EncEvent.isLongClick = 0) :=
  press_click_long_click_exclusive 1 32 64 (by omega) (by omega) (by omega)

/-- C2 (counterexample). A press held exactly 450 ms (pressed at 1 ms,
released at 451 ms, polled every ms until the release debounces) produces
exactly one click and zero long clicks, whereas the claim as stated
promises one long click and zero clicks for every press held at least
450 ms. The code fires a long click only when the press age strictly
exceeds 450 ms. -/
theorem press_450ms_counterexample :
    (pressCycleRun 1 451 482).2.countP EncEvent.isClick = 1 ∧
    (pressCycleRun 1 451 482).2.countP EncEvent.isLongClick = 0 := by
  have h2 : pressCycleRun 1 451 482 = (cycleState 1 450 482, cycleEventsFrom 1 450 0 482) :=
    pressCycleRun_eq 1 450 482 (by omega) (by omega)
  rw [h2]
  constructor
  · rw [countP_click_cycleEventsFrom 1 450 (by omega) 482 0, if_pos (by omega)]
  · rw [countP_longClick_cycleEventsFrom 1 450 (by omega) 482 0, if_neg (by omega)]
